import Mathlib

/-!
# whois-parser-ai: the chat-completion client and the WHOIS adapter

A shallow embedding of `whois-parser-ai.go`.

* Go strings are byte sequences (`GoString`); bytes are natural numbers.
* `encoding/json` is modelled in two layers.  A JSON text is parsed to a
  document (`parseJSON`, the grammar Go's scanner accepts, string literals
  unquoted as Go does).  `json.Unmarshal` then stores a document into a Go
  value, and `json.Marshal` turns a Go value into the document whose text it
  writes.  The decimal text of a `float64` is not modelled: a marshalled float
  stays in the document as the float itself.
* The HTTP exchange is a parameter (`World`): the outcome of every attempt,
  the delay the retry back-off draws, and the address of a method value that
  the status-error message prints.
* `resty` is modelled by its retry settings and its attempt loop
  (`RestyClient.Execute`).
-/

namespace WhoisParserAI

/-! ## Go strings -/

/-- A Go string or byte slice: a sequence of bytes (each below 256). -/
abbrev GoString := List Nat

/-- The UTF-8 encoding of one rune (`utf8.AppendRune` on a scalar value). -/
def encodeRune (r : Nat) : GoString :=
  if r < 0x80 then [r]
  else if r < 0x800 then [0xC0 + r / 64, 0x80 + r % 64]
  else if r < 0x10000 then [0xE0 + r / 4096, 0x80 + r / 64 % 64, 0x80 + r % 64]
  else [0xF0 + r / 262144, 0x80 + r / 4096 % 64, 0x80 + r / 64 % 64, 0x80 + r % 64]

/-- The bytes of a list of characters. -/
def bytesOf : List Char → GoString
  | [] => []
  | c :: cs => encodeRune c.toNat ++ bytesOf cs

/-- The bytes of a string literal of the source. -/
def lit (s : String) : GoString := bytesOf s.data

/-- Whether `b` is a UTF-8 continuation byte. -/
def isCont (b : Nat) : Bool := 0x80 ≤ b && b ≤ 0xBF

/-- The width of the well-formed UTF-8 sequence at the head of `s`, following
`utf8.DecodeRune`; `none` where Go reports `(RuneError, 1)`. -/
def runeLen : GoString → Option Nat
  | [] => none
  | b0 :: rest =>
    if b0 < 0x80 then some 1
    else if b0 < 0xC2 then none
    else if b0 ≤ 0xDF then
      match rest with
      | b1 :: _ => if isCont b1 then some 2 else none
      | _ => none
    else if b0 ≤ 0xEF then
      match rest with
      | b1 :: b2 :: _ =>
        let lo := if b0 = 0xE0 then 0xA0 else 0x80
        let hi := if b0 = 0xED then 0x9F else 0xBF
        if lo ≤ b1 && b1 ≤ hi && isCont b2 then some 3 else none
      | _ => none
    else if b0 ≤ 0xF4 then
      match rest with
      | b1 :: b2 :: b3 :: _ =>
        let lo := if b0 = 0xF0 then 0x90 else 0x80
        let hi := if b0 = 0xF4 then 0x8F else 0xBF
        if lo ≤ b1 && b1 ≤ hi && isCont b2 && isCont b3 then some 4 else none
      | _ => none
    else none

/-- The bytes of U+FFFD, the replacement rune. -/
def replacementRune : GoString := [0xEF, 0xBF, 0xBD]

/-- Worker of `coerceUTF8`; `fuel` bounds the number of steps. -/
def coerceUTF8Aux : Nat → GoString → GoString
  | 0, _ => []
  | _ + 1, [] => []
  | fuel + 1, b :: rest =>
    match runeLen (b :: rest) with
    | some n => (b :: rest).take n ++ coerceUTF8Aux fuel ((b :: rest).drop n)
    | none => replacementRune ++ coerceUTF8Aux fuel rest

/-- A string coerced to valid UTF-8 the way `encoding/json` does when it
writes or reads a string: well-formed sequences are kept, every other byte
becomes U+FFFD. -/
def coerceUTF8 (s : GoString) : GoString := coerceUTF8Aux s.length s

/-- Worker of `validUTF8`. -/
def validUTF8Aux : Nat → GoString → Bool
  | _, [] => true
  | 0, _ :: _ => false
  | fuel + 1, b :: rest =>
    match runeLen (b :: rest) with
    | some n => validUTF8Aux fuel ((b :: rest).drop n)
    | none => false

/-- Whether the string is well-formed UTF-8 (`utf8.Valid`). -/
def validUTF8 (s : GoString) : Bool := validUTF8Aux s.length s

/-- Whether `sub` starts `s`. -/
def startsWith : GoString → GoString → Bool
  | _, [] => true
  | [], _ :: _ => false
  | a :: s, b :: sub => a == b && startsWith s sub

/-- Whether `sub` occurs in `s` (`strings.Contains`). -/
def containsBytes : GoString → GoString → Bool
  | [], sub => sub.isEmpty
  | a :: s, sub => startsWith (a :: s) sub || containsBytes s sub

/-- Worker of `decimal`: the digits of `n`, least significant first. -/
def digitsRev : Nat → Nat → List Nat
  | 0, _ => []
  | fuel + 1, n => if n < 10 then [n] else n % 10 :: digitsRev fuel (n / 10)

/-- The decimal text of a natural number (the verb `%d`, `strconv.Itoa`). -/
def decimal (n : Nat) : GoString := ((digitsRev (n + 1) n).reverse).map (fun d => d + 0x30)

/-! ## float64 -/

/-- A `float64`, by its IEEE-754 binary64 bit pattern. -/
structure Float64 where
  bits : Nat
deriving DecidableEq, Repr

/-- Whether the float is neither an infinity nor a NaN (`math.IsInf`,
`math.IsNaN`): the exponent field is not all ones. -/
def Float64.isFinite (f : Float64) : Bool := f.bits / 2 ^ 52 % 2048 != 2047

/-- Worker of `bitLen`. -/
def bitLenAux : Nat → Nat → Nat
  | 0, _ => 0
  | fuel + 1, n => if n = 0 then 0 else 1 + bitLenAux fuel (n / 2)

/-- The number of binary digits of `n`. -/
def bitLen (n : Nat) : Nat := bitLenAux n n

/-- Whether `n / d ≥ 2 ^ e`. -/
def geTwoPow (n d : Nat) (e : Int) : Bool :=
  if 0 ≤ e then decide (d * 2 ^ e.toNat ≤ n) else decide (d ≤ n * 2 ^ (-e).toNat)

/-- The `float64` nearest to `n / d` (ties to even) with the given sign, as
`strconv.ParseFloat` computes it; `none` where the value is out of range
(Go returns an infinity and `ErrRange`). -/
def roundToFloat64 (neg : Bool) (n d : Nat) : Option Float64 :=
  let sign := if neg then 2 ^ 63 else 0
  if n = 0 then some ⟨sign⟩
  else
    let e0 : Int := (bitLen n : Int) - (bitLen d : Int)
    let e : Int := if geTwoPow n d e0 then e0 else e0 - 1
    let q : Int := max (e - 52) (-1074)
    let num := if q < 0 then n * 2 ^ (-q).toNat else n
    let den := if q < 0 then d else d * 2 ^ q.toNat
    let quo := num / den
    let rem := num % den
    let m := if den < 2 * rem || (2 * rem == den && quo % 2 == 1) then quo + 1 else quo
    let m1 := if m = 2 ^ 53 then 2 ^ 52 else m
    let q1 : Int := if m = 2 ^ 53 then q + 1 else q
    if m1 < 2 ^ 52 then some ⟨sign + m1⟩
    else if 2047 ≤ q1 + 1075 then none
    else some ⟨sign + (q1 + 1075).toNat * 2 ^ 52 + (m1 - 2 ^ 52)⟩

/-- Whether the byte is an ASCII digit. -/
def isDigit (c : Nat) : Bool := 0x30 ≤ c && c ≤ 0x39

/-- The value of a run of ASCII digits, most significant first. -/
def digitsValue (acc : Nat) : GoString → Nat
  | [] => acc
  | c :: cs => digitsValue (acc * 10 + (c - 0x30)) cs

/-- `strconv.ParseFloat(s, 64)` on a JSON number literal (sign, integer part,
optional fraction, optional exponent). -/
def parseFloat (s : GoString) : Option Float64 :=
  let neg := s.head? == some 0x2D
  let s1 := if neg then s.drop 1 else s
  let intPart := s1.takeWhile isDigit
  let s2 := s1.dropWhile isDigit
  let frac := if s2.head? == some 0x2E then (s2.drop 1).takeWhile isDigit else []
  let s3 := if s2.head? == some 0x2E then (s2.drop 1).dropWhile isDigit else s2
  let s4 := s3.drop 1
  let expNeg := s4.head? == some 0x2D
  let expDigits := if s4.head? == some 0x2D || s4.head? == some 0x2B then s4.drop 1 else s4
  let ex : Int := if expNeg then -(digitsValue 0 expDigits : Int) else (digitsValue 0 expDigits : Int)
  let m := digitsValue 0 (intPart ++ frac)
  let e10 : Int := ex - (frac.length : Int)
  if 0 ≤ e10 then roundToFloat64 neg (m * 10 ^ e10.toNat) 1
  else roundToFloat64 neg m (10 ^ (-e10).toNat)

/-- `strconv.ParseInt(s, 10, 64)` on a JSON number literal: only a literal
without fraction and exponent whose value fits in 64 bits is accepted. -/
def parseInt64 (s : GoString) : Option Int :=
  let neg := s.head? == some 0x2D
  let s1 := if neg then s.drop 1 else s
  if s1.isEmpty || !s1.all isDigit then none
  else
    let v := digitsValue 0 s1
    if neg then (if v ≤ 2 ^ 63 then some (-(v : Int)) else none)
    else (if v < 2 ^ 63 then some (v : Int) else none)

/-! ## JSON documents and texts -/

/-- A number of a JSON document: a literal as a text writes it, or a float
that `json.Marshal` writes with `strconv` (the shortest decimal that reads
back as the same float). -/
inductive JNum where
  | lit (text : GoString)
  | float (f : Float64)
deriving DecidableEq, Repr

/-- A JSON document. Strings hold their unquoted bytes. -/
inductive Json where
  | null
  | bool (b : Bool)
  | num (n : JNum)
  | str (s : GoString)
  | arr (xs : List Json)
  | obj (members : List (GoString × Json))
deriving Repr

/-- Whether the byte is JSON white space. -/
def isSpace (c : Nat) : Bool := c == 0x20 || c == 0x09 || c == 0x0A || c == 0x0D

/-- The text without its leading white space. -/
def skipSpace : GoString → GoString
  | [] => []
  | c :: cs => if isSpace c then skipSpace cs else c :: cs

/-- The value of a hexadecimal digit. -/
def hexVal (c : Nat) : Option Nat :=
  if 0x30 ≤ c && c ≤ 0x39 then some (c - 0x30)
  else if 0x61 ≤ c && c ≤ 0x66 then some (c - 0x61 + 10)
  else if 0x41 ≤ c && c ≤ 0x46 then some (c - 0x41 + 10)
  else none

/-- The rune of an escape `\uXXXX` at the head of the text (`getu4`). -/
def getu4 : GoString → Option Nat
  | 0x5C :: 0x75 :: a :: b :: c :: d :: _ =>
    match hexVal a, hexVal b, hexVal c, hexVal d with
    | some x, some y, some z, some w => some (x * 4096 + y * 256 + z * 16 + w)
    | _, _, _, _ => none
  | _ => none

/-- The byte a one-letter escape stands for. -/
def escapeByte (c : Nat) : Option Nat :=
  if c = 0x22 then some 0x22
  else if c = 0x5C then some 0x5C
  else if c = 0x2F then some 0x2F
  else if c = 0x62 then some 0x08
  else if c = 0x66 then some 0x0C
  else if c = 0x6E then some 0x0A
  else if c = 0x72 then some 0x0D
  else if c = 0x74 then some 0x09
  else none

/-- The rest of a string literal after its opening quote: the unquoted bytes
and the text after the closing quote. Control bytes and unknown escapes are
rejected (scanner); escapes are replaced, a surrogate pair is joined, a lone
surrogate and every byte that is not well-formed UTF-8 become U+FFFD
(`unquote`). -/
def scanString : Nat → GoString → Option (GoString × GoString)
  | 0, _ => none
  | _ + 1, [] => none
  | fuel + 1, c :: rest =>
    if c = 0x22 then some ([], rest)
    else if c < 0x20 then none
    else if c = 0x5C then
      match rest with
      | [] => none
      | e :: rest1 =>
        if e = 0x75 then
          match getu4 (c :: rest) with
          | none => none
          | some r =>
            let after := rest1.drop 4
            if 0xD800 ≤ r && r < 0xE000 then
              match getu4 after with
              | some r2 =>
                if r < 0xDC00 && 0xDC00 ≤ r2 && r2 < 0xE000 then
                  (scanString fuel (after.drop 6)).map
                    (fun p => (encodeRune ((r - 0xD800) * 1024 + (r2 - 0xDC00) + 0x10000) ++ p.1, p.2))
                else (scanString fuel after).map (fun p => (replacementRune ++ p.1, p.2))
              | none => (scanString fuel after).map (fun p => (replacementRune ++ p.1, p.2))
            else (scanString fuel after).map (fun p => (encodeRune r ++ p.1, p.2))
        else
          match escapeByte e with
          | none => none
          | some b => (scanString fuel rest1).map (fun p => (b :: p.1, p.2))
    else
      match runeLen (c :: rest) with
      | some n => (scanString fuel ((c :: rest).drop n)).map (fun p => ((c :: rest).take n ++ p.1, p.2))
      | none => (scanString fuel rest).map (fun p => (replacementRune ++ p.1, p.2))

/-- A number literal at the head of the text, by the JSON grammar: an optional
minus, an integer part without superfluous leading zero, an optional fraction
and an optional exponent. The literal and the text after it. -/
def scanNumber (s : GoString) : Option (GoString × GoString) :=
  let sign := if s.head? == some 0x2D then [0x2D] else []
  let s1 := s.drop sign.length
  let intPart := if s1.head? == some 0x30 then [0x30] else s1.takeWhile isDigit
  let s2 := s1.drop intPart.length
  if intPart.isEmpty then none
  else
    let hasFrac := s2.head? == some 0x2E
    let frac := if hasFrac then (s2.drop 1).takeWhile isDigit else []
    let s3 := if hasFrac then s2.drop (1 + frac.length) else s2
    if hasFrac && frac.isEmpty then none
    else
      let hasExp := s3.head? == some 0x65 || s3.head? == some 0x45
      let s4 := s3.drop 1
      let expSign := if hasExp && (s4.head? == some 0x2D || s4.head? == some 0x2B) then s4.take 1 else []
      let expDigits := if hasExp then (s4.drop expSign.length).takeWhile isDigit else []
      if hasExp && expDigits.isEmpty then none
      else
        let n := sign.length + intPart.length + (if hasFrac then 1 + frac.length else 0)
          + (if hasExp then 1 + expSign.length + expDigits.length else 0)
        some (s.take n, s.drop n)

/-- The deepest nesting of arrays and objects Go's scanner accepts. -/
def maxNestingDepth : Nat := 10000

mutual
/-- One JSON value at the head of the text (no leading white space) and the
text after it. `depth` counts the enclosing arrays and objects. -/
def parseValue : Nat → Nat → GoString → Option (Json × GoString)
  | 0, _, _ => none
  | _ + 1, _, [] => none
  | fuel + 1, depth, c :: rest =>
    if c = 0x7B then
      if maxNestingDepth ≤ depth then none
      else
        match skipSpace rest with
        | 0x7D :: rest1 => some (Json.obj [], rest1)
        | rest1 => (parseMembers fuel (depth + 1) rest1).map (fun p => (Json.obj p.1, p.2))
    else if c = 0x5B then
      if maxNestingDepth ≤ depth then none
      else
        match skipSpace rest with
        | 0x5D :: rest1 => some (Json.arr [], rest1)
        | rest1 => (parseElements fuel (depth + 1) rest1).map (fun p => (Json.arr p.1, p.2))
    else if c = 0x22 then
      (scanString (rest.length + 1) rest).map (fun p => (Json.str p.1, p.2))
    else if startsWith (c :: rest) [0x74, 0x72, 0x75, 0x65] then some (Json.bool true, rest.drop 3)
    else if startsWith (c :: rest) [0x66, 0x61, 0x6C, 0x73, 0x65] then some (Json.bool false, rest.drop 4)
    else if startsWith (c :: rest) [0x6E, 0x75, 0x6C, 0x6C] then some (Json.null, rest.drop 3)
    else (scanNumber (c :: rest)).map (fun p => (Json.num (JNum.lit p.1), p.2))
/-- The elements of an array after its opening bracket, up to and including
the closing bracket. -/
def parseElements : Nat → Nat → GoString → Option (List Json × GoString)
  | 0, _, _ => none
  | fuel + 1, depth, s =>
    match parseValue fuel depth s with
    | none => none
    | some (v, rest) =>
      match skipSpace rest with
      | 0x2C :: rest1 => (parseElements fuel depth (skipSpace rest1)).map (fun p => (v :: p.1, p.2))
      | 0x5D :: rest1 => some ([v], rest1)
      | _ => none
/-- The members of an object after its opening brace, up to and including the
closing brace. -/
def parseMembers : Nat → Nat → GoString → Option (List (GoString × Json) × GoString)
  | 0, _, _ => none
  | fuel + 1, depth, s =>
    match s with
    | 0x22 :: s1 =>
      match scanString (s1.length + 1) s1 with
      | none => none
      | some (k, rest) =>
        match skipSpace rest with
        | 0x3A :: rest1 =>
          match parseValue fuel depth (skipSpace rest1) with
          | none => none
          | some (v, rest2) =>
            match skipSpace rest2 with
            | 0x2C :: rest3 =>
              (parseMembers fuel depth (skipSpace rest3)).map (fun p => ((k, v) :: p.1, p.2))
            | 0x7D :: rest3 => some ([(k, v)], rest3)
            | _ => none
        | _ => none
    | _ => none
end

/-- The document of a JSON text: one value, white space around it, nothing
else; `none` for a text `json.Unmarshal` rejects as not being JSON. -/
def parseJSON (text : GoString) : Option Json :=
  match parseValue (text.length + 1) 0 (skipSpace text) with
  | some (v, rest) => if (skipSpace rest).isEmpty then some v else none
  | none => none

/-! ## Go values -/

/-- A Go `int` or `int64` (64 bits). -/
structure GoInt where
  val : Int
  lo : -9223372036854775808 ≤ val
  hi : val < 9223372036854775808

instance : DecidableEq GoInt := fun a b =>
  if h : a.val = b.val then isTrue (by cases a; cases b; simp_all)
  else isFalse (fun e => h (by rw [e]))

/-- The machine integer of an in-range integer. -/
def GoInt.ofInt? (i : Int) : Option GoInt :=
  if h : -9223372036854775808 ≤ i ∧ i < 9223372036854775808 then some ⟨i, h.1, h.2⟩ else none

/-- The zero value of `int`. -/
def GoInt.zero : GoInt := ⟨0, by decide, by decide⟩

/-- The errors of `encoding/json`: a text that is not JSON (`SyntaxError`), a
value that does not fit the Go type (`UnmarshalTypeError`), a float that JSON
cannot write (`UnsupportedValueError`). -/
inductive JsonError where
  | invalidText
  | typeMismatch
  | unsupportedValue
deriving DecidableEq, Repr

/-- What `json.Unmarshal` stores in an `interface{}`: nil, bool, float64,
string, `[]interface{}` or `map[string]interface{}`. A map is a list of
entries with distinct keys. -/
inductive JValue where
  | null
  | bool (b : Bool)
  | number (f : Float64)
  | string (s : GoString)
  | array (xs : List JValue)
  | object (entries : List (GoString × JValue))
deriving Repr

/-- The open field mapping `map[string]interface{}`. -/
abbrev WhoisMap := List (GoString × JValue)

/-- Assignment `m[k] = v`. -/
def mapInsert : WhoisMap → GoString → JValue → WhoisMap
  | [], k, v => [(k, v)]
  | (k1, v1) :: rest, k, v => if k1 = k then (k, v) :: rest else (k1, v1) :: mapInsert rest k v

/-- The value of `m[k]`, if the key is present. -/
def mapLookup : WhoisMap → GoString → Option JValue
  | [], _ => none
  | (k1, v1) :: rest, k => if k1 = k then some v1 else mapLookup rest k

mutual
/-- The Go value of a document stored in an `interface{}`. A number literal
out of the range of `float64` leaves nil (and an error, see `numbersFit`). -/
def toInterface : Json → JValue
  | Json.null => JValue.null
  | Json.bool b => JValue.bool b
  | Json.num n =>
    match n with
    | JNum.lit t =>
      match parseFloat t with
      | some f => JValue.number f
      | none => JValue.null
    | JNum.float f => JValue.number f
  | Json.str s => JValue.string s
  | Json.arr xs => JValue.array (toInterfaceList xs)
  | Json.obj ms => JValue.object (toInterfaceMembers ms [])
/-- The elements of a document array as Go values. -/
def toInterfaceList : List Json → List JValue
  | [] => []
  | x :: xs => toInterface x :: toInterfaceList xs
/-- The members of a document object assigned to a map one after the other:
a repeated name keeps the last value. -/
def toInterfaceMembers : List (GoString × Json) → WhoisMap → WhoisMap
  | [], acc => acc
  | (k, v) :: rest, acc => toInterfaceMembers rest (mapInsert acc k (toInterface v))
end

mutual
/-- Whether every number literal of the document is in the range of
`float64`. -/
def numbersFit : Json → Bool
  | Json.null => true
  | Json.bool _ => true
  | Json.num n =>
    match n with
    | JNum.lit t => (parseFloat t).isSome
    | JNum.float _ => true
  | Json.str _ => true
  | Json.arr xs => numbersFitList xs
  | Json.obj ms => numbersFitMembers ms
/-- `numbersFit` on the elements of an array. -/
def numbersFitList : List Json → Bool
  | [] => true
  | x :: xs => numbersFit x && numbersFitList xs
/-- `numbersFit` on the members of an object. -/
def numbersFitMembers : List (GoString × Json) → Bool
  | [] => true
  | (_, v) :: rest => numbersFit v && numbersFitMembers rest
end

mutual
/-- Equality test on documents. -/
def Json.beq : Json → Json → Bool
  | Json.null, Json.null => true
  | Json.bool a, Json.bool b => a == b
  | Json.num a, Json.num b => a == b
  | Json.str a, Json.str b => a == b
  | Json.arr a, Json.arr b => Json.beqList a b
  | Json.obj a, Json.obj b => Json.beqMembers a b
  | _, _ => false
/-- Equality test on lists of documents. -/
def Json.beqList : List Json → List Json → Bool
  | [], [] => true
  | x :: xs, y :: ys => Json.beq x y && Json.beqList xs ys
  | _, _ => false
/-- Equality test on object members. -/
def Json.beqMembers : List (GoString × Json) → List (GoString × Json) → Bool
  | [], [] => true
  | (k, x) :: xs, (l, y) :: ys => k == l && Json.beq x y && Json.beqMembers xs ys
  | _, _ => false
end

mutual
/-- Equality test on Go values. -/
def JValue.beq : JValue → JValue → Bool
  | JValue.null, JValue.null => true
  | JValue.bool a, JValue.bool b => a == b
  | JValue.number a, JValue.number b => a == b
  | JValue.string a, JValue.string b => a == b
  | JValue.array a, JValue.array b => JValue.beqList a b
  | JValue.object a, JValue.object b => JValue.beqEntries a b
  | _, _ => false
/-- Equality test on lists of Go values. -/
def JValue.beqList : List JValue → List JValue → Bool
  | [], [] => true
  | x :: xs, y :: ys => JValue.beq x y && JValue.beqList xs ys
  | _, _ => false
/-- Equality test on map entries. -/
def JValue.beqEntries : List (GoString × JValue) → List (GoString × JValue) → Bool
  | [], [] => true
  | (k, x) :: xs, (l, y) :: ys => k == l && JValue.beq x y && JValue.beqEntries xs ys
  | _, _ => false
end

/-- `json.Unmarshal(text, &m)` for a nil `m map[string]interface{}`: the map
afterwards (`none` is the nil map) and the error returned. -/
def unmarshalMap (text : GoString) : Option WhoisMap × Option JsonError :=
  match parseJSON text with
  | none => (none, some JsonError.invalidText)
  | some Json.null => (none, none)
  | some (Json.obj ms) =>
    (some (toInterfaceMembers ms []),
      if numbersFitMembers ms then none else some JsonError.typeMismatch)
  | some _ => (none, some JsonError.typeMismatch)

/-- Worker of `foldName`: the name under which `encoding/json` compares an
object key with a field name: ASCII letters in upper case, the long s (U+017F)
as S and the Kelvin sign (U+212A) as K. Other bytes are kept, which never
equals the folded name of an ASCII field name unless Go's does. -/
def foldNameAux : Nat → GoString → GoString
  | 0, _ => []
  | _ + 1, [] => []
  | fuel + 1, c :: rest =>
    if 0x61 ≤ c && c ≤ 0x7A then (c - 0x20) :: foldNameAux fuel rest
    else if startsWith (c :: rest) [0xC5, 0xBF] then 0x53 :: foldNameAux fuel (rest.drop 1)
    else if startsWith (c :: rest) [0xE2, 0x84, 0xAA] then 0x4B :: foldNameAux fuel (rest.drop 2)
    else c :: foldNameAux fuel rest

/-- The folded name of an object key (`foldName`). -/
def foldName (s : GoString) : GoString := foldNameAux s.length s

/-- Whether the object key names the field with the given JSON name. -/
def keyIs (key : GoString) (field : String) : Bool := foldName key == foldName (lit field)

/-- The integer a float stands for when its decimal text is an integer
literal. -/
def Float64.integral? (f : Float64) : Option Int :=
  let b := f.bits % 2 ^ 64
  let ex := b / 2 ^ 52 % 2048
  let fr := b % 2 ^ 52
  let m := if ex = 0 then fr else fr + 2 ^ 52
  let sh := (if ex = 0 then 1 else ex)
  let v : Option Nat :=
    if ex = 2047 then none
    else if 1075 ≤ sh then some (m * 2 ^ (sh - 1075))
    else if m % 2 ^ (1075 - sh) = 0 then some (m / 2 ^ (1075 - sh)) else none
  v.map (fun n => if 2 ^ 63 ≤ b then -(n : Int) else (n : Int))

/-- Unmarshal into a `string`: null leaves the value, a string replaces it. -/
def decodeString (j : Json) (cur : GoString) : Except JsonError GoString :=
  match j with
  | Json.null => Except.ok cur
  | Json.str s => Except.ok s
  | _ => Except.error JsonError.typeMismatch

/-- Unmarshal into an `int` or `int64`: null leaves the value, an integer
literal in range replaces it. -/
def decodeInt (j : Json) (cur : GoInt) : Except JsonError GoInt :=
  match j with
  | Json.null => Except.ok cur
  | Json.num n =>
    match n with
    | JNum.lit t =>
      match (parseInt64 t).bind GoInt.ofInt? with
      | some i => Except.ok i
      | none => Except.error JsonError.typeMismatch
    | JNum.float f =>
      match f.integral?.bind GoInt.ofInt? with
      | some i => Except.ok i
      | none => Except.error JsonError.typeMismatch
  | _ => Except.error JsonError.typeMismatch

/-- Unmarshal into a `float64`. -/
def decodeFloat (j : Json) (cur : Float64) : Except JsonError Float64 :=
  match j with
  | Json.null => Except.ok cur
  | Json.num n =>
    match n with
    | JNum.lit t =>
      match parseFloat t with
      | some f => Except.ok f
      | none => Except.error JsonError.typeMismatch
    | JNum.float f => Except.ok f
  | _ => Except.error JsonError.typeMismatch

/-- Unmarshal into a pointer: null sets nil, another value is stored in the
pointee (allocated at `zero` when the pointer is nil). -/
def decodePtr {α : Type} (dec : Json → α → Except JsonError α) (zero : α) (j : Json)
    (cur : Option α) : Except JsonError (Option α) :=
  match j with
  | Json.null => Except.ok none
  | _ => (dec j (cur.getD zero)).map some

/-- The elements of an array stored one by one: element `i` goes into the
slice's element `i` when it has one, else into a zero value. -/
def decodeElems {α : Type} (dec : Json → α → Except JsonError α) (zero : α) :
    List Json → List α → Except JsonError (List α)
  | [], _ => Except.ok []
  | x :: xs, cur =>
    match dec x (cur.headD zero) with
    | Except.error e => Except.error e
    | Except.ok a => (decodeElems dec zero xs cur.tail).map (fun r => a :: r)

/-- Unmarshal into a slice (`none` is the nil slice): null sets nil, an array
sets its elements. -/
def decodeSlice {α : Type} (dec : Json → α → Except JsonError α) (zero : α) (j : Json)
    (cur : Option (List α)) : Except JsonError (Option (List α)) :=
  match j with
  | Json.null => Except.ok none
  | Json.arr xs => (decodeElems dec zero xs (cur.getD [])).map some
  | _ => Except.error JsonError.typeMismatch

/-- Unmarshal into a struct: null leaves it, an object stores its members one
after the other through `setField`, which skips unknown keys. -/
def decodeStruct {α : Type} (setField : α → GoString → Json → Except JsonError α) (j : Json)
    (cur : α) : Except JsonError α :=
  match j with
  | Json.null => Except.ok cur
  | Json.obj ms => ms.foldlM (fun a kv => setField a kv.1 kv.2) cur
  | _ => Except.error JsonError.typeMismatch

/-! ## The types of the source -/

/-- One chat message (`Message`). -/
structure Message where
  Role : GoString
  Content : GoString
deriving DecidableEq, Repr

/-- Request structure for the Azure OpenAI API (`ChatCompletionRequest`).
A slice is `none` when nil; a pointer is `none` when nil. -/
structure ChatCompletionRequest where
  Messages : Option (List Message)
  MaxTokens : Option GoInt
  Temperature : Option Float64
  TopP : Option Float64
  Stop : Option (List GoString)
deriving DecidableEq

/-- Token counters of a response (`Usage`). -/
structure Usage where
  PromptTokens : GoInt
  CompletionTokens : GoInt
  TotalTokens : GoInt
deriving DecidableEq

/-- One choice of a response (`Choice`). -/
structure Choice where
  Index : GoInt
  Message : Message
  FinishReason : GoString
deriving DecidableEq

/-- Response structure from the Azure OpenAI API (`ChatCompletionResponse`). -/
structure ChatCompletionResponse where
  ID : GoString
  Object : GoString
  Created : GoInt
  Model : GoString
  Choices : Option (List Choice)
  Usage : Usage
deriving DecidableEq

/-- The client configuration (`AzureOpenAIClient`). -/
structure AzureOpenAIClient where
  APIKey : GoString
  Endpoint : GoString
  Deployment : GoString
  Model : GoString
  APIVersion : GoString
deriving DecidableEq, Repr

/-- `NewAzureOpenAIClient`: `Deployment` keeps its zero value. -/
def NewAzureOpenAIClient (apiKey endpoint model : GoString) : AzureOpenAIClient :=
  { APIKey := apiKey
    Endpoint := endpoint
    Deployment := []
    Model := model
    APIVersion := lit "2025-01-01-preview" }

/-- `intPtr`: a pointer to the value. -/
def intPtr (i : GoInt) : Option GoInt := some i

/-- `float64Ptr`: a pointer to the value. -/
def float64Ptr (f : Float64) : Option Float64 := some f

/-! ## json.Marshal of a request -/

/-- The decimal text of an integer (`strconv.AppendInt`). -/
def formatInt (i : Int) : GoString :=
  if i < 0 then 0x2D :: decimal i.natAbs else decimal i.toNat

/-- A string as `json.Marshal` writes it: coerced to valid UTF-8. -/
def marshalString (s : GoString) : Json := Json.str (coerceUTF8 s)

/-- A `Message` as `json.Marshal` writes it: both fields, always. -/
def marshalMessage (m : Message) : Json :=
  Json.obj [(lit "role", marshalString m.Role), (lit "content", marshalString m.Content)]

/-- An optional float field with `omitempty`: nothing for a nil pointer, an
error for an infinity or a NaN. -/
def marshalFloatField (name : String) (p : Option Float64) :
    Except JsonError (List (GoString × Json)) :=
  match p with
  | none => Except.ok []
  | some f =>
    if f.isFinite then Except.ok [(lit name, Json.num (JNum.float f))]
    else Except.error JsonError.unsupportedValue

/-- The value of the field `messages`: null for a nil slice, else the array
of the messages. -/
def marshalMessages (ms : Option (List Message)) : Json :=
  match ms with
  | none => Json.null
  | some l => Json.arr (l.map marshalMessage)

/-- An optional integer field with `omitempty`: nothing for a nil pointer. -/
def marshalIntField (name : String) (p : Option GoInt) : List (GoString × Json) :=
  match p with
  | none => []
  | some n => [(lit name, Json.num (JNum.lit (formatInt n.val)))]

/-- A slice of strings with `omitempty`: nothing for a nil or empty slice. -/
def marshalStringsField (name : String) (p : Option (List GoString)) :
    List (GoString × Json) :=
  match p with
  | none => []
  | some [] => []
  | some (x :: xs) => [(lit name, Json.arr ((x :: xs).map marshalString))]

/-- What `marshalFloatField` writes for a pointer that is nil or points to a
finite float. -/
def floatMember (name : String) (p : Option Float64) : List (GoString × Json) :=
  match p with
  | none => []
  | some f => [(lit name, Json.num (JNum.float f))]

/-- `json.Marshal(req)` for a `ChatCompletionRequest`, by its field tags:
`messages` always (null for a nil slice), `max_tokens`, `temperature` and
`top_p` unless the pointer is nil, `stop` unless the slice is empty. -/
def marshalRequest (req : ChatCompletionRequest) : Except JsonError Json :=
  match marshalFloatField "temperature" req.Temperature with
  | Except.error e => Except.error e
  | Except.ok temperature =>
    match marshalFloatField "top_p" req.TopP with
    | Except.error e => Except.error e
    | Except.ok topP =>
      Except.ok (Json.obj
        ([(lit "messages", marshalMessages req.Messages)]
          ++ marshalIntField "max_tokens" req.MaxTokens
          ++ temperature
          ++ topP
          ++ marshalStringsField "stop" req.Stop))

/-! ## json.Unmarshal into the types of the source -/

/-- The zero `Message`. -/
def Message.zero : Message := { Role := [], Content := [] }

/-- One member of an object stored in a `Message`. -/
def Message.setField (m : Message) (key : GoString) (v : Json) : Except JsonError Message :=
  if keyIs key "role" then (decodeString v m.Role).map (fun s => { m with Role := s })
  else if keyIs key "content" then (decodeString v m.Content).map (fun s => { m with Content := s })
  else Except.ok m

/-- Unmarshal into a `Message`. -/
def decodeMessage : Json → Message → Except JsonError Message := decodeStruct Message.setField

/-- The zero `ChatCompletionRequest`. -/
def ChatCompletionRequest.zero : ChatCompletionRequest :=
  { Messages := none, MaxTokens := none, Temperature := none, TopP := none, Stop := none }

/-- One member of an object stored in a `ChatCompletionRequest`. -/
def ChatCompletionRequest.setField (r : ChatCompletionRequest) (key : GoString) (v : Json) :
    Except JsonError ChatCompletionRequest :=
  if keyIs key "messages" then
    (decodeSlice decodeMessage Message.zero v r.Messages).map (fun x => { r with Messages := x })
  else if keyIs key "max_tokens" then
    (decodePtr decodeInt GoInt.zero v r.MaxTokens).map (fun x => { r with MaxTokens := x })
  else if keyIs key "temperature" then
    (decodePtr decodeFloat ⟨0⟩ v r.Temperature).map (fun x => { r with Temperature := x })
  else if keyIs key "top_p" then
    (decodePtr decodeFloat ⟨0⟩ v r.TopP).map (fun x => { r with TopP := x })
  else if keyIs key "stop" then
    (decodeSlice decodeString [] v r.Stop).map (fun x => { r with Stop := x })
  else Except.ok r

/-- `json.Unmarshal` of a request document into a zero `ChatCompletionRequest`. -/
def unmarshalRequest (doc : Json) : Except JsonError ChatCompletionRequest :=
  decodeStruct ChatCompletionRequest.setField doc ChatCompletionRequest.zero

/-- The step of `json.Unmarshal` over the members of a request object. -/
def requestStep (a : ChatCompletionRequest) (kv : GoString × Json) :
    Except JsonError ChatCompletionRequest :=
  a.setField kv.1 kv.2

/-- The zero `Usage`. -/
def Usage.zero : Usage :=
  { PromptTokens := GoInt.zero, CompletionTokens := GoInt.zero, TotalTokens := GoInt.zero }

/-- One member of an object stored in a `Usage`. -/
def Usage.setField (u : Usage) (key : GoString) (v : Json) : Except JsonError Usage :=
  if keyIs key "prompt_tokens" then
    (decodeInt v u.PromptTokens).map (fun x => { u with PromptTokens := x })
  else if keyIs key "completion_tokens" then
    (decodeInt v u.CompletionTokens).map (fun x => { u with CompletionTokens := x })
  else if keyIs key "total_tokens" then
    (decodeInt v u.TotalTokens).map (fun x => { u with TotalTokens := x })
  else Except.ok u

/-- The zero `Choice`. -/
def Choice.zero : Choice := { Index := GoInt.zero, Message := Message.zero, FinishReason := [] }

/-- One member of an object stored in a `Choice`. -/
def Choice.setField (c : Choice) (key : GoString) (v : Json) : Except JsonError Choice :=
  if keyIs key "index" then (decodeInt v c.Index).map (fun x => { c with Index := x })
  else if keyIs key "message" then
    (decodeMessage v c.Message).map (fun x => { c with Message := x })
  else if keyIs key "finish_reason" then
    (decodeString v c.FinishReason).map (fun x => { c with FinishReason := x })
  else Except.ok c

/-- The zero `ChatCompletionResponse` (`var chatResp ChatCompletionResponse`). -/
def ChatCompletionResponse.zero : ChatCompletionResponse :=
  { ID := [], Object := [], Created := GoInt.zero, Model := [], Choices := none,
    Usage := Usage.zero }

/-- One member of an object stored in a `ChatCompletionResponse`. -/
def ChatCompletionResponse.setField (r : ChatCompletionResponse) (key : GoString) (v : Json) :
    Except JsonError ChatCompletionResponse :=
  if keyIs key "id" then (decodeString v r.ID).map (fun x => { r with ID := x })
  else if keyIs key "object" then (decodeString v r.Object).map (fun x => { r with Object := x })
  else if keyIs key "created" then (decodeInt v r.Created).map (fun x => { r with Created := x })
  else if keyIs key "model" then (decodeString v r.Model).map (fun x => { r with Model := x })
  else if keyIs key "choices" then
    (decodeSlice (decodeStruct Choice.setField) Choice.zero v r.Choices).map
      (fun x => { r with Choices := x })
  else if keyIs key "usage" then
    (decodeStruct Usage.setField v r.Usage).map (fun x => { r with Usage := x })
  else Except.ok r

/-- `json.Unmarshal(body, &chatResp)` for a zero `chatResp`. -/
def unmarshalResponse (body : GoString) : Except JsonError ChatCompletionResponse :=
  match parseJSON body with
  | none => Except.error JsonError.invalidText
  | some doc => decodeStruct ChatCompletionResponse.setField doc ChatCompletionResponse.zero

/-! ## The HTTP exchange and resty -/

/-- The request handed to resty: method, URL, headers in the order they are
set, and the body (the document `json.Marshal` wrote). -/
structure HttpRequest where
  method : GoString
  url : GoString
  headers : List (GoString × GoString)
  body : Json

/-- A response: the status code, and what `io.ReadAll(resp.Body)` gives (the
body bytes, or the message of a read error). -/
structure HttpResponse where
  status : Nat
  body : Except GoString GoString

/-- Everything outside the program. `transport req n` is the outcome of the
`n`-th attempt (from 1) at sending `req`: a response, or the message of a
transport error. `backoff n` is the delay in nanoseconds the jittered
exponential back-off draws after attempt `n`, before resty clamps it.
`statusCodeAddr` is the code address of the method value `resp.StatusCode`. -/
structure World where
  transport : HttpRequest → Nat → Except GoString HttpResponse
  backoff : Nat → Nat
  statusCodeAddr : Nat

/-- A retry condition: `func(r *resty.Response, err error) bool`. -/
abbrev RetryConditionFunc := Option HttpResponse → Option GoString → Bool

/-- The retry settings of a resty client (durations in nanoseconds). -/
structure RestyClient where
  RetryCount : Nat
  RetryWaitTime : Nat
  RetryMaxWaitTime : Nat
  RetryConditions : List RetryConditionFunc
  AllowNonIdempotentRetry : Bool

/-- One second, as a `time.Duration`. -/
def second : Nat := 1000000000

/-- `resty.New()`: the defaults of resty v3. No retry, waits from 100 ms to
2 s, no retry condition, and only idempotent methods are retried until
`SetAllowNonIdempotentRetry(true)`, which the source never calls. -/
def restyNew : RestyClient :=
  { RetryCount := 0
    RetryWaitTime := 100000000
    RetryMaxWaitTime := 2 * second
    RetryConditions := []
    AllowNonIdempotentRetry := false }

/-- `Client.SetRetryCount`. -/
def RestyClient.SetRetryCount (c : RestyClient) (n : Nat) : RestyClient :=
  { c with RetryCount := n }

/-- `Client.SetRetryWaitTime`. -/
def RestyClient.SetRetryWaitTime (c : RestyClient) (d : Nat) : RestyClient :=
  { c with RetryWaitTime := d }

/-- `Client.SetRetryMaxWaitTime`. -/
def RestyClient.SetRetryMaxWaitTime (c : RestyClient) (d : Nat) : RestyClient :=
  { c with RetryMaxWaitTime := d }

/-- `Client.AddRetryConditions`. -/
def RestyClient.AddRetryConditions (c : RestyClient) (fs : List RetryConditionFunc) :
    RestyClient :=
  { c with RetryConditions := c.RetryConditions ++ fs }

/-- `Response.StatusCode()`: 0 when there is no response. -/
def StatusCode (r : Option HttpResponse) : Nat :=
  match r with
  | some resp => resp.status
  | none => 0

/-- The methods resty retries without `AllowNonIdempotentRetry`. -/
def idempotentMethods : List GoString :=
  [lit "DELETE", lit "GET", lit "HEAD", lit "OPTIONS", lit "PUT", lit "TRACE"]

/-- `Request.isIdempotent`. -/
def isIdempotent (c : RestyClient) (method : GoString) : Bool :=
  idempotentMethods.contains method || c.AllowNonIdempotentRetry

/-- Whether some retry condition of the client asks for a retry of the
attempt's outcome. (resty's built-in default conditions stand behind the same
idempotency gate as these and are not modelled.) -/
def needsRetry (c : RestyClient) (out : Except GoString HttpResponse) : Bool :=
  match out with
  | Except.ok resp => c.RetryConditions.any (fun f => f (some resp) none)
  | Except.error e => c.RetryConditions.any (fun f => f none (some e))

/-- The wait before the next attempt: the drawn delay kept between
`RetryWaitTime` and `RetryMaxWaitTime` (`balanceMinMax`). -/
def nextWait (c : RestyClient) (drawn : Nat) : Nat :=
  if drawn = 0 || c.RetryMaxWaitTime < drawn then c.RetryMaxWaitTime
  else if drawn < c.RetryWaitTime then c.RetryWaitTime
  else drawn

/-- What `Request.Execute` leaves: the outcome of the last attempt, the number
of attempts made, and the waits between them in order. -/
structure ExecResult where
  outcome : Except GoString HttpResponse
  attempts : Nat
  waits : List Nat

/-- The attempt loop of `Request.Execute`. `retriesLeft` is `RetryCount`
minus the retries made, `attempt` the number of the attempt to make. The loop
ends after an attempt when no retry is left, when the method may not be
retried, or when no retry condition holds; else it waits and goes on. -/
def attemptLoop (c : RestyClient) (w : World) (req : HttpRequest) : Nat → Nat → ExecResult
  | 0, attempt => { outcome := w.transport req attempt, attempts := attempt, waits := [] }
  | retriesLeft + 1, attempt =>
    let out := w.transport req attempt
    if !isIdempotent c req.method then { outcome := out, attempts := attempt, waits := [] }
    else if !needsRetry c out then { outcome := out, attempts := attempt, waits := [] }
    else
      let next := attemptLoop c w req retriesLeft (attempt + 1)
      { next with waits := nextWait c (w.backoff attempt) :: next.waits }

/-- `Request.Execute`: the first attempt and up to `RetryCount` retries. -/
def RestyClient.Execute (c : RestyClient) (w : World) (req : HttpRequest) : ExecResult :=
  attemptLoop c w req c.RetryCount 1

/-! ## ChatCompletion -/

/-- The errors `ChatCompletion` returns, one per `fmt.Errorf` of the source.
`apiStatus` holds the whole message; the others wrap their cause. -/
inductive GoError where
  | marshaling (cause : JsonError)
  | creatingRequest (cause : GoString)
  | readingResponse (cause : GoString)
  | apiStatus (message : GoString)
  | parsingResponse (cause : JsonError)
deriving DecidableEq, Repr

/-- The retry condition `ChatCompletion` installs:
`err != nil || r.StatusCode() >= 500`. -/
def retryCondition : RetryConditionFunc :=
  fun r err => err.isSome || decide (StatusCode r ≥ 500)

/-- The resty client `ChatCompletion` builds. -/
def chatClient : RestyClient :=
  (((restyNew.SetRetryCount 3).SetRetryWaitTime (2 * second)).SetRetryMaxWaitTime
    (8 * second)).AddRetryConditions [retryCondition]

/-- The URL `ChatCompletion` builds with `fmt.Sprintf`. -/
def chatURL (c : AzureOpenAIClient) : GoString :=
  c.Endpoint ++ lit "/openai/deployments/" ++ c.Model ++ lit "/chat/completions?api-version="
    ++ c.APIVersion

/-- The message of the status error: the format
`"API request failed with status %d: %s"` applied to the method value
`resp.StatusCode` (not called: `%d` prints its address) and to the body. -/
def statusMessage (w : World) (body : GoString) : GoString :=
  lit "API request failed with status " ++ decimal w.statusCodeAddr ++ lit ": " ++ body

/-- The request `ChatCompletion` hands to resty:
`client.R().SetBody(data).SetHeader(..).SetHeader(..).Post(url)`. -/
def chatPost (c : AzureOpenAIClient) (data : Json) : HttpRequest :=
  { method := lit "POST"
    url := chatURL c
    headers := [(lit "Content-Type", lit "application/json"), (lit "api-key", c.APIKey)]
    body := data }

/-- What a call of `ChatCompletion` does: the value it returns (a response or
an error, never both), the request it handed to resty if any, the number of
HTTP attempts and the waits between them. -/
structure ChatCall where
  result : Except GoError ChatCompletionResponse
  posted : Option HttpRequest
  attempts : Nat
  waits : List Nat

/-- `ChatCompletion`. -/
def ChatCompletion (w : World) (c : AzureOpenAIClient) (req : ChatCompletionRequest) :
    ChatCall :=
  match marshalRequest req with
  | Except.error err =>
    { result := Except.error (GoError.marshaling err), posted := none, attempts := 0,
      waits := [] }
  | Except.ok data =>
    let ex := chatClient.Execute w (chatPost c data)
    let result : Except GoError ChatCompletionResponse :=
      match ex.outcome with
      | Except.error err => Except.error (GoError.creatingRequest err)
      | Except.ok resp =>
        match resp.body with
        | Except.error err => Except.error (GoError.readingResponse err)
        | Except.ok body =>
          if resp.status != 200 then Except.error (GoError.apiStatus (statusMessage w body))
          else
            match unmarshalResponse body with
            | Except.error err => Except.error (GoError.parsingResponse err)
            | Except.ok chatResp => Except.ok chatResp
    { result := result, posted := some (chatPost c data), attempts := ex.attempts,
      waits := ex.waits }

/-- The value `ChatCompletion` returns for the outcome of the last attempt. -/
def chatResult (w : World) (out : Except GoString HttpResponse) :
    Except GoError ChatCompletionResponse :=
  match out with
  | Except.error err => Except.error (GoError.creatingRequest err)
  | Except.ok resp =>
    match resp.body with
    | Except.error err => Except.error (GoError.readingResponse err)
    | Except.ok body =>
      if resp.status != 200 then Except.error (GoError.apiStatus (statusMessage w body))
      else
        match unmarshalResponse body with
        | Except.error err => Except.error (GoError.parsingResponse err)
        | Except.ok chatResp => Except.ok chatResp

/-! ## ParseWhois -/

/-- The system prompt of `ParseWhois`. -/
def roleSystem : GoString :=
  lit ("\n" ++
    "You are a parser that extracts WHOIS data into JSON. Extract the following data\n" ++
    "from the given whois output, returning a JSON as a string, following the structure given\n" ++
    "below. For the dates, consider just the year, month and day in the format YYYY-MM-DD.\n" ++
    "Do not add any markup or markdown to the result.\n" ++
    "\n" ++
    "results = \x7b\n" ++
    "  \x27domain_name\x27\n" ++
    "  \x27expiration_date\x27\n" ++
    "  \x27creation_date\x27\n" ++
    "  \x27registrar\x27\n" ++
    "  \x27name_servers\x27\n" ++
    "  \x27registrant_contact\x27\n" ++
    "  \x27admin_contact\x27\n" ++
    "  \x27tech_contact\x27\n" ++
    "  \x27status\x27\n" ++
    "\x7d\n")

/-- The request `ParseWhois` prepares: 0.7 and 0.95 are the nearest floats. -/
def whoisRequest (whoisText : GoString) : ChatCompletionRequest :=
  { Messages := some
      [ { Role := lit "system", Content := roleSystem },
        { Role := lit "user", Content := whoisText } ]
    MaxTokens := intPtr ⟨512, by decide, by decide⟩
    Temperature := float64Ptr ⟨0x3FE6666666666666⟩
    TopP := float64Ptr ⟨0x3FEE666666666666⟩
    Stop := none }

/-- How a call of `ParseWhois` ends: it returns its two results (either may
be nil), or the index expression `response.Choices[0]` panics. -/
inductive ParseOutcome where
  | returned (parsedWhois : Option WhoisMap) (err : Option GoError)
  | panicked

/-- The part of `ParseWhois` after the call of `ChatCompletion`. -/
def finishParse (r : Except GoError ChatCompletionResponse) : ParseOutcome :=
  match r with
  | Except.error err => ParseOutcome.returned none (some err)
  | Except.ok response =>
    match response.Choices.getD [] with
    | [] => ParseOutcome.panicked
    | choice :: _ => ParseOutcome.returned (unmarshalMap choice.Message.Content).1 none

/-- `ParseWhois`. -/
def ParseWhois (w : World) (c : AzureOpenAIClient) (whoisText : GoString) : ParseOutcome :=
  finishParse (ChatCompletion w c (whoisRequest whoisText)).result

/-- The client of `ChatCompletion` with resty's retry of non-idempotent
methods switched on (`SetAllowNonIdempotentRetry(true)`, which the source does
not call). -/
def retryingClient : RestyClient := { chatClient with AllowNonIdempotentRetry := true }

/-- The value of the member `name` of a document object, if it has one. -/
def Json.member (doc : Json) (name : String) : Option Json :=
  match doc with
  | Json.obj ms => ms.lookup (lit name)
  | _ => none

/-- Whether both strings of the message are well-formed UTF-8. -/
def Message.stringsValid (m : Message) : Bool := validUTF8 m.Role && validUTF8 m.Content

/-- Whether every string of the request (roles, contents, stop sequences) is
well-formed UTF-8. -/
def ChatCompletionRequest.stringsValid (r : ChatCompletionRequest) : Bool :=
  (r.Messages.getD []).all Message.stringsValid && (r.Stop.getD []).all validUTF8

/-- Whether `Temperature` and `TopP`, where set, are finite. -/
def ChatCompletionRequest.floatsFinite (r : ChatCompletionRequest) : Bool :=
  (r.Temperature.map Float64.isFinite).getD true && (r.TopP.map Float64.isFinite).getD true

/-- The request as it comes back from its own JSON: an empty `Stop` is
omitted and so comes back nil. -/
def ChatCompletionRequest.normalised (r : ChatCompletionRequest) : ChatCompletionRequest :=
  { r with Stop := if (r.Stop.getD []).isEmpty then none else r.Stop }

/-! ## Worlds and inputs used in the examples -/

/-- A world whose every attempt is answered with the given status and body;
the back-off draws 3 s, 6 s, 9 s, ... -/
def constWorld (status : Nat) (body : GoString) : World :=
  { transport := fun _ _ => Except.ok { status := status, body := Except.ok body }
    backoff := fun n => n * (3 * second)
    statusCodeAddr := 6571744 }

/-- A client as `NewAzureOpenAIClient` builds it. -/
def exampleClient : AzureOpenAIClient :=
  NewAzureOpenAIClient (lit "secret") (lit "https://example.openai.azure.com") (lit "gpt-4o")

/-- The WHOIS text of the end-to-end scenario. -/
def exampleWhois : GoString := lit "Domain: example.com\nRegistrar: Example Corp"

/-- A response body with one choice whose content is the given JSON string
literal (already quoted and escaped). -/
def bodyWithContent (quoted : String) : GoString :=
  lit ("\x7b\"id\":\"chatcmpl-1\",\"object\":\"chat.completion\",\"created\":1700000000," ++
    "\"model\":\"gpt-4o\",\"choices\":[\x7b\"index\":0,\"message\":\x7b\"role\":\"assistant\"," ++
    "\"content\":" ++ quoted ++ "\x7d,\"finish_reason\":\"stop\"\x7d]," ++
    "\"usage\":\x7b\"prompt_tokens\":120,\"completion_tokens\":20,\"total_tokens\":140\x7d\x7d")

/-- The stub service of the end-to-end scenario: status 200, one choice whose
content is the object with `domain_name` and `registrar`. -/
def scenarioWorld : World :=
  constWorld 200 (bodyWithContent
    "\"\x7b\\\"domain_name\\\":\\\"example.com\\\",\\\"registrar\\\":\\\"Example Corp\\\"\x7d\"")

/-- A stub service whose choice content is the text `not json`. -/
def notJsonWorld : World := constWorld 200 (bodyWithContent "\"not json\"")

/-- A world that always answers 503 and whose back-off draws 3 s, 7 s, 5 s. -/
def jitterWorld : World :=
  { transport := fun _ _ => Except.ok { status := 503, body := Except.ok (lit "busy") }
    backoff := fun n => if n = 1 then 3 * second else if n = 2 then 7 * second else 5 * second
    statusCodeAddr := 6571744 }

/-- A WHOIS text in Latin-1, as many registries send it: `Soci\xE9t\xE9`,
where the byte E9 is not well-formed UTF-8. -/
def latin1Whois : GoString := [0x53, 0x6F, 0x63, 0x69, 0xE9, 0x74, 0xE9]

/-- A request with every optional field set to a zero value: pointers to 0
and to 0.0, and an empty non-nil `Stop`. -/
def zeroValuedRequest : ChatCompletionRequest :=
  { Messages := some [{ Role := lit "user", Content := lit "hi" }]
    MaxTokens := intPtr GoInt.zero
    Temperature := float64Ptr ⟨0⟩
    TopP := none
    Stop := some [] }

/-! ## Decidable equality of documents and Go values -/

mutual
theorem Json.eq_of_beq : ∀ (a b : Json), Json.beq a b = true → a = b
  | Json.null, b, h => by cases b <;> simp_all [Json.beq]
  | Json.bool x, b, h => by cases b <;> simp_all [Json.beq]
  | Json.num x, b, h => by cases b <;> simp_all [Json.beq]
  | Json.str x, b, h => by cases b <;> simp_all [Json.beq]
  | Json.arr xs, b, h => by
    cases b with
    | arr ys => simp only [Json.beq] at h; rw [Json.eqList_of_beq xs ys h]
    | _ => simp [Json.beq] at h
  | Json.obj xs, b, h => by
    cases b with
    | obj ys => simp only [Json.beq] at h; rw [Json.eqMembers_of_beq xs ys h]
    | _ => simp [Json.beq] at h
theorem Json.eqList_of_beq : ∀ (a b : List Json), Json.beqList a b = true → a = b
  | [], b, h => by cases b <;> simp_all [Json.beqList]
  | x :: xs, b, h => by
    cases b with
    | nil => simp [Json.beqList] at h
    | cons y ys =>
      simp only [Json.beqList, Bool.and_eq_true] at h
      rw [Json.eq_of_beq x y h.1, Json.eqList_of_beq xs ys h.2]
theorem Json.eqMembers_of_beq :
    ∀ (a b : List (GoString × Json)), Json.beqMembers a b = true → a = b
  | [], b, h => by cases b <;> simp_all [Json.beqMembers]
  | (k, x) :: xs, b, h => by
    cases b with
    | nil => simp [Json.beqMembers] at h
    | cons y ys =>
      obtain ⟨l, y⟩ := y
      simp only [Json.beqMembers, Bool.and_eq_true, beq_iff_eq] at h
      rw [h.1.1, Json.eq_of_beq x y h.1.2, Json.eqMembers_of_beq xs ys h.2]
end

mutual
theorem Json.beq_self : ∀ (a : Json), Json.beq a a = true
  | Json.null => by simp [Json.beq]
  | Json.bool x => by simp [Json.beq]
  | Json.num x => by simp [Json.beq]
  | Json.str x => by simp [Json.beq]
  | Json.arr xs => by simp only [Json.beq]; exact Json.beqList_self xs
  | Json.obj xs => by simp only [Json.beq]; exact Json.beqMembers_self xs
theorem Json.beqList_self : ∀ (a : List Json), Json.beqList a a = true
  | [] => by simp [Json.beqList]
  | x :: xs => by
    simp only [Json.beqList, Bool.and_eq_true]
    exact ⟨Json.beq_self x, Json.beqList_self xs⟩
theorem Json.beqMembers_self : ∀ (a : List (GoString × Json)), Json.beqMembers a a = true
  | [] => by simp [Json.beqMembers]
  | (k, x) :: xs => by
    simp only [Json.beqMembers, Bool.and_eq_true, beq_self_eq_true, true_and]
    exact ⟨Json.beq_self x, Json.beqMembers_self xs⟩
end

instance : DecidableEq Json := fun a b =>
  decidable_of_iff (Json.beq a b = true) ⟨Json.eq_of_beq a b, fun h => h ▸ Json.beq_self a⟩

mutual
theorem JValue.value_eq_of_beq : ∀ (a b : JValue), JValue.beq a b = true → a = b
  | JValue.null, b, h => by cases b <;> simp_all [JValue.beq]
  | JValue.bool x, b, h => by cases b <;> simp_all [JValue.beq]
  | JValue.number x, b, h => by cases b <;> simp_all [JValue.beq]
  | JValue.string x, b, h => by cases b <;> simp_all [JValue.beq]
  | JValue.array xs, b, h => by
    cases b with
    | array ys => simp only [JValue.beq] at h; rw [JValue.values_eq_of_beq xs ys h]
    | _ => simp [JValue.beq] at h
  | JValue.object xs, b, h => by
    cases b with
    | object ys => simp only [JValue.beq] at h; rw [JValue.entries_eq_of_beq xs ys h]
    | _ => simp [JValue.beq] at h
theorem JValue.values_eq_of_beq : ∀ (a b : List JValue), JValue.beqList a b = true → a = b
  | [], b, h => by cases b <;> simp_all [JValue.beqList]
  | x :: xs, b, h => by
    cases b with
    | nil => simp [JValue.beqList] at h
    | cons y ys =>
      simp only [JValue.beqList, Bool.and_eq_true] at h
      rw [JValue.value_eq_of_beq x y h.1, JValue.values_eq_of_beq xs ys h.2]
theorem JValue.entries_eq_of_beq :
    ∀ (a b : List (GoString × JValue)), JValue.beqEntries a b = true → a = b
  | [], b, h => by cases b <;> simp_all [JValue.beqEntries]
  | (k, x) :: xs, b, h => by
    cases b with
    | nil => simp [JValue.beqEntries] at h
    | cons y ys =>
      obtain ⟨l, y⟩ := y
      simp only [JValue.beqEntries, Bool.and_eq_true, beq_iff_eq] at h
      rw [h.1.1, JValue.value_eq_of_beq x y h.1.2, JValue.entries_eq_of_beq xs ys h.2]
end

mutual
theorem JValue.value_beq_self : ∀ (a : JValue), JValue.beq a a = true
  | JValue.null => by simp [JValue.beq]
  | JValue.bool x => by simp [JValue.beq]
  | JValue.number x => by simp [JValue.beq]
  | JValue.string x => by simp [JValue.beq]
  | JValue.array xs => by simp only [JValue.beq]; exact JValue.values_beq_self xs
  | JValue.object xs => by simp only [JValue.beq]; exact JValue.entries_beq_self xs
theorem JValue.values_beq_self : ∀ (a : List JValue), JValue.beqList a a = true
  | [] => by simp [JValue.beqList]
  | x :: xs => by
    simp only [JValue.beqList, Bool.and_eq_true]
    exact ⟨JValue.value_beq_self x, JValue.values_beq_self xs⟩
theorem JValue.entries_beq_self : ∀ (a : List (GoString × JValue)), JValue.beqEntries a a = true
  | [] => by simp [JValue.beqEntries]
  | (k, x) :: xs => by
    simp only [JValue.beqEntries, Bool.and_eq_true, beq_self_eq_true, true_and]
    exact ⟨JValue.value_beq_self x, JValue.entries_beq_self xs⟩
end

instance : DecidableEq JValue := fun a b =>
  decidable_of_iff (JValue.beq a b = true) ⟨JValue.value_eq_of_beq a b, fun h => h ▸ JValue.value_beq_self a⟩

deriving instance DecidableEq for Except

deriving instance DecidableEq for ParseOutcome

/-! ## The call of ChatCompletion -/

theorem chatClient_retryCount : chatClient.RetryCount = 3 := rfl

theorem post_not_idempotent (data : Json) (c : AzureOpenAIClient) :
    isIdempotent chatClient (chatPost c data).method = false := by
  show isIdempotent chatClient (lit "POST") = false
  decide

/-- With the client of `ChatCompletion` the POST is attempted once: the loop
ends at the idempotency gate after the first attempt. -/
theorem execute_chatPost (w : World) (c : AzureOpenAIClient) (data : Json) :
    chatClient.Execute w (chatPost c data) =
      { outcome := w.transport (chatPost c data) 1, attempts := 1, waits := [] } := by
  have h : chatClient.RetryCount = 2 + 1 := rfl
  unfold RestyClient.Execute
  rw [h]
  simp [attemptLoop, post_not_idempotent]

theorem chatCompletion_of_marshal (w : World) (c : AzureOpenAIClient)
    (req : ChatCompletionRequest) (data : Json) (h : marshalRequest req = Except.ok data) :
    ChatCompletion w c req =
      { result := chatResult w (w.transport (chatPost c data) 1)
        posted := some (chatPost c data)
        attempts := 1
        waits := [] } := by
  unfold ChatCompletion
  rw [h]
  simp only [execute_chatPost]
  rfl

theorem chatCompletion_of_marshal_error (w : World) (c : AzureOpenAIClient)
    (req : ChatCompletionRequest) (e : JsonError) (h : marshalRequest req = Except.error e) :
    ChatCompletion w c req =
      { result := Except.error (GoError.marshaling e), posted := none, attempts := 0,
        waits := [] } := by
  unfold ChatCompletion
  rw [h]

theorem chatResult_status_error (w : World) (resp : HttpResponse) (body : GoString)
    (hb : resp.body = Except.ok body) (hs : resp.status ≠ 200) :
    chatResult w (Except.ok resp) = Except.error (GoError.apiStatus (statusMessage w body)) := by
  simp [chatResult, hb, hs]

/-- The loop ends after an attempt that no retry condition wants retried. -/
theorem attemptLoop_no_retry (c : RestyClient) (w : World) (req : HttpRequest) (k a : Nat)
    (h : needsRetry c (w.transport req a) = false) :
    attemptLoop c w req k a = { outcome := w.transport req a, attempts := a, waits := [] } := by
  cases k with
  | zero => rfl
  | succ k =>
    unfold attemptLoop
    simp [h]

/-- The document `json.Marshal` writes for the request of `ParseWhois`. -/
theorem marshal_whoisRequest (whoisText : GoString) :
    marshalRequest (whoisRequest whoisText) = Except.ok (Json.obj
      [(lit "messages", Json.arr
          [marshalMessage { Role := lit "system", Content := roleSystem },
           marshalMessage { Role := lit "user", Content := whoisText }]),
       (lit "max_tokens", Json.num (JNum.lit (lit "512"))),
       (lit "temperature", Json.num (JNum.float ⟨0x3FE6666666666666⟩)),
       (lit "top_p", Json.num (JNum.float ⟨0x3FEE666666666666⟩))]) := by
  have h1 : Float64.isFinite ⟨0x3FE6666666666666⟩ = true := by decide
  have h2 : Float64.isFinite ⟨0x3FEE666666666666⟩ = true := by decide
  have h3 : formatInt 512 = lit "512" := by decide
  simp [marshalRequest, whoisRequest, marshalFloatField, marshalMessages, marshalIntField,
    marshalStringsField, intPtr, float64Ptr, h1, h2, h3]

/-! ## Strings and numbers -/

theorem coerceUTF8Aux_of_valid :
    ∀ (fuel : Nat) (s : GoString), validUTF8Aux fuel s = true → coerceUTF8Aux fuel s = s := by
  intro fuel
  induction fuel with
  | zero =>
    intro s h
    cases s with
    | nil => rfl
    | cons b rest => simp [validUTF8Aux] at h
  | succ fuel ih =>
    intro s h
    cases s with
    | nil => rfl
    | cons b rest =>
      unfold validUTF8Aux at h
      unfold coerceUTF8Aux
      cases hr : runeLen (b :: rest) with
      | none => simp [hr] at h
      | some n =>
        simp only [hr] at h ⊢
        rw [ih _ h, List.take_append_drop]

/-- Coercion to valid UTF-8 leaves a well-formed string as it is. -/
theorem coerceUTF8_of_valid (s : GoString) (h : validUTF8 s = true) : coerceUTF8 s = s :=
  coerceUTF8Aux_of_valid s.length s h

theorem digitsValue_nil (acc : Nat) : digitsValue acc [] = acc := rfl

theorem digitsValue_cons (acc c : Nat) (cs : GoString) :
    digitsValue acc (c :: cs) = digitsValue (acc * 10 + (c - 0x30)) cs := rfl

theorem digitsValue_append (acc : Nat) (s t : GoString) :
    digitsValue acc (s ++ t) = digitsValue (digitsValue acc s) t := by
  induction s generalizing acc with
  | nil => rfl
  | cons c cs ih =>
    rw [List.cons_append, digitsValue_cons, digitsValue_cons]
    exact ih _

/-- The digits `digitsRev` gives: each below 10, at least one, and read back
(least significant first) they give the number. -/
theorem digitsRev_spec :
    ∀ (fuel n : Nat), n < fuel →
      digitsRev fuel n ≠ []
      ∧ (∀ d ∈ digitsRev fuel n, d < 10)
      ∧ digitsValue 0 ((digitsRev fuel n).reverse.map (fun d => d + 0x30)) = n := by
  intro fuel
  induction fuel with
  | zero => intro n h; omega
  | succ fuel ih =>
    intro n h
    unfold digitsRev
    split
    · rename_i hlt
      refine ⟨by simp, by simpa using hlt, ?_⟩
      simp only [List.reverse_cons, List.reverse_nil, List.nil_append, List.map_cons,
        List.map_nil, digitsValue_cons, digitsValue_nil]
      omega
    · rename_i hge
      have hdiv : n / 10 < fuel := by omega
      obtain ⟨_, h2, h3⟩ := ih (n / 10) hdiv
      refine ⟨by simp, ?_, ?_⟩
      · intro d hd
        simp only [List.mem_cons] at hd
        rcases hd with hd | hd
        · omega
        · exact h2 d hd
      · simp only [List.reverse_cons, List.map_append, List.map_cons, List.map_nil,
          digitsValue_append, h3, digitsValue_cons, digitsValue_nil]
        omega

theorem decimal_value (n : Nat) : digitsValue 0 (decimal n) = n :=
  (digitsRev_spec (n + 1) n (Nat.lt_succ_self n)).2.2

theorem decimal_all_digits (n : Nat) : (decimal n).all isDigit = true := by
  have h := (digitsRev_spec (n + 1) n (Nat.lt_succ_self n)).2.1
  simp only [decimal, List.all_eq_true, List.mem_map, List.mem_reverse]
  rintro c ⟨d, hd, rfl⟩
  have := h d hd
  simp only [isDigit, Bool.and_eq_true, decide_eq_true_eq]
  omega

theorem decimal_ne_nil (n : Nat) : decimal n ≠ [] := by
  have h := (digitsRev_spec (n + 1) n (Nat.lt_succ_self n)).1
  simp [decimal, h]

theorem decimal_head (n : Nat) : ((decimal n).head? == some 0x2D) = false := by
  have hall := decimal_all_digits n
  have hne := decimal_ne_nil n
  cases hd : decimal n with
  | nil => exact absurd hd hne
  | cons c cs =>
    rw [hd] at hall
    simp only [List.all_cons, Bool.and_eq_true, isDigit, decide_eq_true_eq] at hall
    simp only [List.head?_cons, beq_eq_false_iff_ne, ne_eq, Option.some.injEq]
    omega

/-- `strconv` reads back the decimal text it writes for a machine integer. -/
theorem parseInt64_formatInt (i : GoInt) :
    (parseInt64 (formatInt i.val)).bind GoInt.ofInt? = some i := by
  have hlo := i.lo
  have hhi := i.hi
  have hof : GoInt.ofInt? i.val = some i := by
    unfold GoInt.ofInt?
    rw [dif_pos ⟨hlo, hhi⟩]
  have hpow : (2 : Nat) ^ 63 = 9223372036854775808 := by norm_num
  unfold formatInt
  split
  · rename_i hneg
    have hv : (parseInt64 (0x2D :: decimal i.val.natAbs)) = some i.val := by
      unfold parseInt64
      have hall := decimal_all_digits i.val.natAbs
      have hne := decimal_ne_nil i.val.natAbs
      have hemp : (decimal i.val.natAbs).isEmpty = false := by
        cases hd : decimal i.val.natAbs with
        | nil => exact absurd hd hne
        | cons c cs => rfl
      simp only [List.head?_cons, beq_self_eq_true, ↓reduceIte, List.drop_succ_cons,
        List.drop_zero, hemp, hall, Bool.not_true, Bool.or_self, Bool.false_eq_true,
        decimal_value, hpow]
      rw [if_pos (by omega)]
      congr 1
      omega
    rw [hv]
    exact hof
  · rename_i hpos
    have hv : (parseInt64 (decimal i.val.toNat)) = some i.val := by
      unfold parseInt64
      have hall := decimal_all_digits i.val.toNat
      have hne := decimal_ne_nil i.val.toNat
      have hemp : (decimal i.val.toNat).isEmpty = false := by
        cases hd : decimal i.val.toNat with
        | nil => exact absurd hd hne
        | cons c cs => rfl
      simp only [decimal_head, Bool.false_eq_true, ↓reduceIte, hemp, hall, Bool.not_true,
        Bool.or_self, decimal_value, hpow]
      rw [if_pos (by omega)]
      congr 1
      omega
    rw [hv]
    exact hof

/-! ## The request and its JSON -/

theorem requestKeys :
    keyIs (lit "messages") "messages" = true
    ∧ keyIs (lit "messages") "max_tokens" = false
    ∧ keyIs (lit "messages") "temperature" = false
    ∧ keyIs (lit "messages") "top_p" = false
    ∧ keyIs (lit "messages") "stop" = false
    ∧ keyIs (lit "max_tokens") "messages" = false
    ∧ keyIs (lit "max_tokens") "max_tokens" = true
    ∧ keyIs (lit "max_tokens") "temperature" = false
    ∧ keyIs (lit "max_tokens") "top_p" = false
    ∧ keyIs (lit "max_tokens") "stop" = false
    ∧ keyIs (lit "temperature") "messages" = false
    ∧ keyIs (lit "temperature") "max_tokens" = false
    ∧ keyIs (lit "temperature") "temperature" = true
    ∧ keyIs (lit "temperature") "top_p" = false
    ∧ keyIs (lit "temperature") "stop" = false
    ∧ keyIs (lit "top_p") "messages" = false
    ∧ keyIs (lit "top_p") "max_tokens" = false
    ∧ keyIs (lit "top_p") "temperature" = false
    ∧ keyIs (lit "top_p") "top_p" = true
    ∧ keyIs (lit "top_p") "stop" = false
    ∧ keyIs (lit "stop") "messages" = false
    ∧ keyIs (lit "stop") "max_tokens" = false
    ∧ keyIs (lit "stop") "temperature" = false
    ∧ keyIs (lit "stop") "top_p" = false
    ∧ keyIs (lit "stop") "stop" = true := by
  decide

theorem messageKeys :
    keyIs (lit "role") "role" = true
    ∧ keyIs (lit "content") "role" = false
    ∧ keyIs (lit "content") "content" = true := by
  decide

theorem decodeMessage_marshalMessage (m : Message) (h : m.stringsValid = true) :
    decodeMessage (marshalMessage m) Message.zero = Except.ok m := by
  simp only [Message.stringsValid, Bool.and_eq_true] at h
  simp [decodeMessage, decodeStruct, marshalMessage, marshalString, List.foldlM,
    Message.setField, messageKeys, decodeString, Except.map, Message.zero,
    coerceUTF8_of_valid _ h.1, coerceUTF8_of_valid _ h.2, bind, Except.bind]
  rfl

theorem decodeElems_messages (ms : List Message) (h : ms.all Message.stringsValid = true) :
    decodeElems decodeMessage Message.zero (ms.map marshalMessage) [] = Except.ok ms := by
  induction ms with
  | nil => rfl
  | cons m ms ih =>
    simp only [List.all_cons, Bool.and_eq_true] at h
    simp [decodeElems, decodeMessage_marshalMessage m h.1, ih h.2, Except.map]

theorem decodeElems_strings (xs : List GoString) (h : xs.all validUTF8 = true) :
    decodeElems decodeString [] (xs.map marshalString) [] = Except.ok xs := by
  induction xs with
  | nil => rfl
  | cons x xs ih =>
    simp only [List.all_cons, Bool.and_eq_true] at h
    simp [decodeElems, marshalString, decodeString, coerceUTF8_of_valid x h.1, Except.map]
    have := ih h.2
    simp only [marshalString] at this
    rw [this]

theorem setField_messages (r : ChatCompletionRequest) (v : Json) :
    r.setField (lit "messages") v
      = (decodeSlice decodeMessage Message.zero v r.Messages).map
          (fun x => { r with Messages := x }) := by
  unfold ChatCompletionRequest.setField
  rw [if_pos (by decide)]

theorem setField_max_tokens (r : ChatCompletionRequest) (v : Json) :
    r.setField (lit "max_tokens") v
      = (decodePtr decodeInt GoInt.zero v r.MaxTokens).map
          (fun x => { r with MaxTokens := x }) := by
  unfold ChatCompletionRequest.setField
  rw [if_neg (by decide), if_pos (by decide)]

theorem setField_temperature (r : ChatCompletionRequest) (v : Json) :
    r.setField (lit "temperature") v
      = (decodePtr decodeFloat ⟨0⟩ v r.Temperature).map
          (fun x => { r with Temperature := x }) := by
  unfold ChatCompletionRequest.setField
  rw [if_neg (by decide), if_neg (by decide), if_pos (by decide)]

theorem setField_top_p (r : ChatCompletionRequest) (v : Json) :
    r.setField (lit "top_p") v
      = (decodePtr decodeFloat ⟨0⟩ v r.TopP).map (fun x => { r with TopP := x }) := by
  unfold ChatCompletionRequest.setField
  rw [if_neg (by decide), if_neg (by decide), if_neg (by decide), if_pos (by decide)]

theorem setField_stop (r : ChatCompletionRequest) (v : Json) :
    r.setField (lit "stop") v
      = (decodeSlice decodeString [] v r.Stop).map (fun x => { r with Stop := x }) := by
  unfold ChatCompletionRequest.setField
  rw [if_neg (by decide), if_neg (by decide), if_neg (by decide), if_neg (by decide),
    if_pos (by decide)]

theorem step_messages (r : ChatCompletionRequest) (msgs : Option (List Message))
    (h0 : r.Messages = none) (hv : (msgs.getD []).all Message.stringsValid = true) :
    List.foldlM requestStep r
        [(lit "messages", marshalMessages msgs)]
      = Except.ok { r with Messages := msgs } := by
  cases msgs with
  | none =>
    simp only [marshalMessages, List.foldlM, requestStep, setField_messages, decodeSlice, Except.map, bind,
      Except.bind, pure, Except.pure]
  | some ms =>
    simp only [Option.getD_some] at hv
    simp only [marshalMessages, List.foldlM, requestStep, setField_messages, decodeSlice, h0, Option.getD_none,
      decodeElems_messages ms hv, Except.map, bind, Except.bind, pure, Except.pure]

theorem step_max_tokens (r : ChatCompletionRequest) (mt : Option GoInt)
    (h0 : r.MaxTokens = none) :
    List.foldlM requestStep r
        (marshalIntField "max_tokens" mt)
      = Except.ok { r with MaxTokens := mt } := by
  cases mt with
  | none =>
    obtain ⟨a, b, c, d, e⟩ := r
    simp only at h0
    subst h0
    rfl
  | some n =>
    simp only [marshalIntField, List.foldlM, requestStep, setField_max_tokens, decodePtr, decodeInt,
      parseInt64_formatInt, Except.map, bind, Except.bind, pure, Except.pure]

theorem step_temperature (r : ChatCompletionRequest) (t : Option Float64)
    (h0 : r.Temperature = none) :
    List.foldlM requestStep r
        (floatMember "temperature" t)
      = Except.ok { r with Temperature := t } := by
  cases t with
  | none =>
    obtain ⟨a, b, c, d, e⟩ := r
    simp only at h0
    subst h0
    rfl
  | some f =>
    simp only [floatMember, List.foldlM, requestStep, setField_temperature, decodePtr, decodeFloat,
      Except.map, bind, Except.bind, pure, Except.pure]

theorem step_top_p (r : ChatCompletionRequest) (t : Option Float64) (h0 : r.TopP = none) :
    List.foldlM requestStep r
        (floatMember "top_p" t)
      = Except.ok { r with TopP := t } := by
  cases t with
  | none =>
    obtain ⟨a, b, c, d, e⟩ := r
    simp only at h0
    subst h0
    rfl
  | some f =>
    simp only [floatMember, List.foldlM, requestStep, setField_top_p, decodePtr, decodeFloat,
      Except.map, bind, Except.bind, pure, Except.pure]

theorem step_stop (r : ChatCompletionRequest) (stop : Option (List GoString))
    (h0 : r.Stop = none) (hv : (stop.getD []).all validUTF8 = true) :
    List.foldlM requestStep r
        (marshalStringsField "stop" stop)
      = Except.ok { r with Stop := if (stop.getD []).isEmpty then none else stop } := by
  rcases stop with _ | _ | ⟨x, xs⟩
  · obtain ⟨a, b, c, d, e⟩ := r
    simp only at h0
    subst h0
    rfl
  · obtain ⟨a, b, c, d, e⟩ := r
    simp only at h0
    subst h0
    rfl
  · simp only [Option.getD_some] at hv
    simp only [marshalStringsField, List.foldlM, requestStep, setField_stop, decodeSlice, h0, Option.getD_none,
      decodeElems_strings (x :: xs) hv, Except.map, bind, Except.bind, pure, Except.pure,
      Option.getD_some, List.isEmpty_cons, Bool.false_eq_true, ↓reduceIte]

theorem marshalFloatField_finite (name : String) (p : Option Float64)
    (h : (p.map Float64.isFinite).getD true = true) :
    marshalFloatField name p = Except.ok (floatMember name p) := by
  cases p with
  | none => rfl
  | some f =>
    simp only [Option.map_some', Option.getD_some] at h
    simp [marshalFloatField, floatMember, h]

/-- The document `json.Marshal` writes for a request whose floats are finite:
the five fields in order, each optional one left out when unset. -/
theorem marshalRequest_of_finite (r : ChatCompletionRequest) (hf : r.floatsFinite = true) :
    marshalRequest r = Except.ok (Json.obj
      ([(lit "messages", marshalMessages r.Messages)]
        ++ marshalIntField "max_tokens" r.MaxTokens
        ++ floatMember "temperature" r.Temperature
        ++ floatMember "top_p" r.TopP
        ++ marshalStringsField "stop" r.Stop)) := by
  simp only [ChatCompletionRequest.floatsFinite, Bool.and_eq_true] at hf
  unfold marshalRequest
  simp only [marshalFloatField_finite "temperature" r.Temperature hf.1,
    marshalFloatField_finite "top_p" r.TopP hf.2]

theorem requestKeyNames :
    (lit "messages" == lit "max_tokens") = false
    ∧ (lit "messages" == lit "temperature") = false
    ∧ (lit "messages" == lit "top_p") = false
    ∧ (lit "messages" == lit "stop") = false
    ∧ (lit "max_tokens" == lit "messages") = false
    ∧ (lit "max_tokens" == lit "temperature") = false
    ∧ (lit "max_tokens" == lit "top_p") = false
    ∧ (lit "max_tokens" == lit "stop") = false
    ∧ (lit "temperature" == lit "messages") = false
    ∧ (lit "temperature" == lit "max_tokens") = false
    ∧ (lit "temperature" == lit "top_p") = false
    ∧ (lit "temperature" == lit "stop") = false
    ∧ (lit "top_p" == lit "messages") = false
    ∧ (lit "top_p" == lit "max_tokens") = false
    ∧ (lit "top_p" == lit "temperature") = false
    ∧ (lit "top_p" == lit "stop") = false
    ∧ (lit "stop" == lit "messages") = false
    ∧ (lit "stop" == lit "max_tokens") = false
    ∧ (lit "stop" == lit "temperature") = false
    ∧ (lit "stop" == lit "top_p") = false := by
  decide

theorem floatsFinite_of_marshal (r : ChatCompletionRequest) (doc : Json)
    (h : marshalRequest r = Except.ok doc) : r.floatsFinite = true := by
  obtain ⟨msgs, mt, temp, topp, stop⟩ := r
  unfold marshalRequest at h
  simp only [ChatCompletionRequest.floatsFinite, Bool.and_eq_true]
  cases temp with
  | none =>
    cases topp with
    | none => exact ⟨rfl, rfl⟩
    | some g =>
      refine ⟨rfl, ?_⟩
      cases hg : g.isFinite with
      | true => simp [hg]
      | false => simp [marshalFloatField, hg] at h
  | some f =>
    cases hf : f.isFinite with
    | false => simp [marshalFloatField, hf] at h
    | true =>
      cases topp with
      | none => exact ⟨by simp [hf], rfl⟩
      | some g =>
        cases hg : g.isFinite with
        | true => exact ⟨by simp [hf], by simp [hg]⟩
        | false => simp [marshalFloatField, hf, hg] at h

/-! ## The claims -/

/-- C1. Whenever `ChatCompletion` succeeds with at least one choice and the
first choice's message content is the JSON text of an object, `ParseWhois`
returns `(m, nil)` where `m` is the map `json.Unmarshal` builds from that
content: the members of the object, whatever their names; the later choices
play no part. -/
theorem parseWhois_returns_parsed_content (w : World) (c : AzureOpenAIClient)
    (whoisText : GoString) (resp : ChatCompletionResponse) (choice : Choice)
    (later : List Choice) (members : List (GoString × Json))
    (hcall : (ChatCompletion w c (whoisRequest whoisText)).result = Except.ok resp)
    (hchoices : resp.Choices = some (choice :: later))
    (hobj : parseJSON choice.Message.Content = some (Json.obj members)) :
    ParseWhois w c whoisText
        = ParseOutcome.returned (unmarshalMap choice.Message.Content).1 none
      ∧ (unmarshalMap choice.Message.Content).1 = some (toInterfaceMembers members []) := by
  unfold ParseWhois finishParse
  rw [hcall]
  simp [hchoices, unmarshalMap, hobj]

/-- The response `ChatCompletion` decodes in the end-to-end scenario. -/
theorem scenario_response :
    (ChatCompletion scenarioWorld exampleClient (whoisRequest exampleWhois)).result
      = Except.ok
          { ID := lit "chatcmpl-1"
            Object := lit "chat.completion"
            Created := ⟨1700000000, by decide, by decide⟩
            Model := lit "gpt-4o"
            Choices := some
              [{ Index := GoInt.zero
                 Message :=
                   { Role := lit "assistant"
                     Content := lit
                       "\x7b\"domain_name\":\"example.com\",\"registrar\":\"Example Corp\"\x7d" }
                 FinishReason := lit "stop" }]
            Usage :=
              { PromptTokens := ⟨120, by decide, by decide⟩
                CompletionTokens := ⟨20, by decide, by decide⟩
                TotalTokens := ⟨140, by decide, by decide⟩ } } := by
  decide!

/-- C1 at the end-to-end scenario of the specification: the content
`{"domain_name":"example.com","registrar":"Example Corp"}` yields the map
`domain_name -> "example.com"`, `registrar -> "Example Corp"`. -/
theorem parseWhois_scenario :
    ParseWhois scenarioWorld exampleClient exampleWhois
      = ParseOutcome.returned
          (some [(lit "domain_name", JValue.string (lit "example.com")),
                 (lit "registrar", JValue.string (lit "Example Corp"))]) none :=
  (parseWhois_returns_parsed_content scenarioWorld exampleClient exampleWhois _
    { Index := GoInt.zero
      Message :=
        { Role := lit "assistant"
          Content := lit
            "\x7b\"domain_name\":\"example.com\",\"registrar\":\"Example Corp\"\x7d" }
      FinishReason := lit "stop" } []
    [(lit "domain_name", Json.str (lit "example.com")),
     (lit "registrar", Json.str (lit "Example Corp"))]
    scenario_response rfl (by decide!)).1.trans (by decide!)

/-- C2 (the code at the failing input). The content `not json` is not valid
JSON, `json.Unmarshal` reports that error, and `ParseWhois` returns the nil
map together with a nil error. -/
theorem parseWhois_not_json_nil_nil :
    unmarshalMap (lit "not json") = (none, some JsonError.invalidText)
      ∧ ParseWhois notJsonWorld exampleClient exampleWhois = ParseOutcome.returned none none := by
  decide!

/-- Whatever the content of the first choice, `ParseWhois` returns a nil
error once `ChatCompletion` succeeded with a choice. -/
theorem parseWhois_error_nil (w : World) (c : AzureOpenAIClient) (whoisText : GoString)
    (resp : ChatCompletionResponse) (choice : Choice) (later : List Choice)
    (hcall : (ChatCompletion w c (whoisRequest whoisText)).result = Except.ok resp)
    (hchoices : resp.Choices = some (choice :: later)) :
    ParseWhois w c whoisText
      = ParseOutcome.returned (unmarshalMap choice.Message.Content).1 none := by
  unfold ParseWhois finishParse
  rw [hcall]
  simp [hchoices]

/-- X1. Every final response whose status is not exactly 200 (other 2xx codes
included) and whose body can be read makes `ChatCompletion` return the status
error, whose message is the fixed text, the address of the method value in
decimal, and the body. -/
theorem chatCompletion_status_error (w : World) (c : AzureOpenAIClient)
    (req : ChatCompletionRequest) (data : Json) (resp : HttpResponse) (body : GoString)
    (hm : marshalRequest req = Except.ok data)
    (ht : w.transport (chatPost c data) 1 = Except.ok resp)
    (hb : resp.body = Except.ok body) (hs : resp.status ≠ 200) :
    (ChatCompletion w c req).result = Except.error (GoError.apiStatus
      (lit "API request failed with status " ++ decimal w.statusCodeAddr ++ lit ": " ++ body)) := by
  rw [chatCompletion_of_marshal w c req data hm]
  simp only [ht]
  rw [chatResult_status_error w resp body hb hs]
  rfl

/-- C3 (the code at the failing input). For a final response 404 with body
`Resource not found` the error message holds the body, but in place of the
status code it holds the address of the method value `resp.StatusCode`: the
text 404 does not occur in it. -/
theorem chatCompletion_404_message :
    (ChatCompletion (constWorld 404 (lit "Resource not found")) exampleClient
        (whoisRequest exampleWhois)).result
      = Except.error (GoError.apiStatus
          (lit "API request failed with status 6571744: Resource not found"))
    ∧ containsBytes (lit "API request failed with status 6571744: Resource not found")
        (lit "Resource not found") = true
    ∧ containsBytes (lit "API request failed with status 6571744: Resource not found")
        (lit "404") = false := by
  decide!

/-- C4. The only retry condition `ChatCompletion` installs asks for a retry
exactly when the attempt ended in a transport error or the status code is at
least 500. So a first response with a status below 500 is never retried: the
condition says no (with it as the only condition the loop ends after one
attempt even where resty retries a POST), and `ChatCompletion` surfaces the
response after exactly one attempt. -/
theorem retry_only_on_error_or_5xx :
    chatClient.RetryConditions = [retryCondition]
    ∧ (∀ (r : Option HttpResponse) (err : Option GoString),
        retryCondition r err = true ↔ (err ≠ none ∨ 500 ≤ StatusCode r))
    ∧ (∀ (resp : HttpResponse), resp.status < 500 →
        retryCondition (some resp) none = false
        ∧ needsRetry chatClient (Except.ok resp) = false)
    ∧ (∀ (w : World) (req : HttpRequest) (resp : HttpResponse),
        w.transport req 1 = Except.ok resp → resp.status < 500 →
        (retryingClient.Execute w req).attempts
            = 1
        ∧ (retryingClient.Execute w req).outcome
            = Except.ok resp)
    ∧ (∀ (w : World) (c : AzureOpenAIClient) (req : ChatCompletionRequest) (data : Json)
        (resp : HttpResponse),
        marshalRequest req = Except.ok data →
        w.transport (chatPost c data) 1 = Except.ok resp → resp.status < 500 →
        (ChatCompletion w c req).attempts = 1
        ∧ (ChatCompletion w c req).waits = []
        ∧ (ChatCompletion w c req).result = chatResult w (Except.ok resp)) := by
  have hcond : ∀ (resp : HttpResponse), resp.status < 500 →
      retryCondition (some resp) none = false := by
    intro resp h
    simp [retryCondition, StatusCode, h]
  refine ⟨rfl, ?_, ?_, ?_, ?_⟩
  · intro r err
    cases err <;> simp [retryCondition]
  · intro resp h
    refine ⟨hcond resp h, ?_⟩
    simp [needsRetry, chatClient, RestyClient.AddRetryConditions, RestyClient.SetRetryCount,
      RestyClient.SetRetryWaitTime, RestyClient.SetRetryMaxWaitTime, restyNew, hcond resp h]
  · intro w req resp ht h
    have hn : needsRetry retryingClient (Except.ok resp) = false := by
      simp [needsRetry, retryingClient, chatClient, RestyClient.AddRetryConditions, RestyClient.SetRetryCount,
        RestyClient.SetRetryWaitTime, RestyClient.SetRetryMaxWaitTime, restyNew, hcond resp h]
    have hn1 : needsRetry retryingClient (w.transport req 1) = false := by rw [ht]; exact hn
    unfold RestyClient.Execute
    rw [attemptLoop_no_retry retryingClient w req _ 1 hn1, ht]
    exact ⟨rfl, rfl⟩
  · intro w c req data resp hm ht _
    rw [chatCompletion_of_marshal w c req data hm, ht]
    exact ⟨rfl, rfl, rfl⟩

/-- C4 at a concrete input: a service that always answers 404 is asked
once. -/
theorem retry_404_one_attempt :
    (ChatCompletion (constWorld 404 (lit "Resource not found")) exampleClient
        (whoisRequest exampleWhois)).attempts = 1
    ∧ retryCondition (some { status := 404, body := Except.ok [] }) none = false
    ∧ retryCondition (some { status := 503, body := Except.ok [] }) none = true
    ∧ retryCondition none (some (lit "connection refused")) = true := by
  decide!

/-- C6. The client of `NewAzureOpenAIClient(apiKey, endpoint, model)` has
API version `2025-01-01-preview`, and every request `ChatCompletion` posts
with it is a POST to `endpoint ++ "/openai/deployments/" ++ model ++
"/chat/completions?api-version=2025-01-01-preview"` (the inputs verbatim, the
`Deployment` field playing no part) with the header `api-key` set to `apiKey`;
a request is posted whenever the chat request serialises. -/
theorem chatCompletion_posts_to_deployment_url (apiKey endpoint model : GoString) (w : World)
    (req : ChatCompletionRequest) :
    (NewAzureOpenAIClient apiKey endpoint model).APIVersion = lit "2025-01-01-preview"
    ∧ (∀ (h : HttpRequest),
        (ChatCompletion w (NewAzureOpenAIClient apiKey endpoint model) req).posted = some h →
        h.method = lit "POST"
        ∧ h.url = endpoint ++ lit "/openai/deployments/" ++ model
            ++ lit "/chat/completions?api-version=2025-01-01-preview"
        ∧ h.headers.lookup (lit "api-key") = some apiKey
        ∧ h.headers.lookup (lit "Content-Type") = some (lit "application/json"))
    ∧ (∀ (deployment : GoString),
        (ChatCompletion w
          { NewAzureOpenAIClient apiKey endpoint model with Deployment := deployment } req).posted
        = (ChatCompletion w (NewAzureOpenAIClient apiKey endpoint model) req).posted)
    ∧ (∀ (data : Json), marshalRequest req = Except.ok data →
        (ChatCompletion w (NewAzureOpenAIClient apiKey endpoint model) req).posted
          = some (chatPost (NewAzureOpenAIClient apiKey endpoint model) data)
        ∧ (ChatCompletion w (NewAzureOpenAIClient apiKey endpoint model) req).result
          = chatResult w
              (w.transport (chatPost (NewAzureOpenAIClient apiKey endpoint model) data) 1)) := by
  have hurl : chatURL (NewAzureOpenAIClient apiKey endpoint model)
      = endpoint ++ lit "/openai/deployments/" ++ model
          ++ lit "/chat/completions?api-version=2025-01-01-preview" := by
    have hl : lit "/chat/completions?api-version=" ++ lit "2025-01-01-preview"
        = lit "/chat/completions?api-version=2025-01-01-preview" := by decide
    simp only [chatURL, NewAzureOpenAIClient, List.append_assoc, hl]
  have hk1 : (lit "api-key" == lit "Content-Type") = false := by decide
  refine ⟨rfl, ?_, ?_, ?_⟩
  · intro h hp
    cases hm : marshalRequest req with
    | error e =>
      rw [chatCompletion_of_marshal_error w _ req e hm] at hp
      simp at hp
    | ok data =>
      rw [chatCompletion_of_marshal w _ req data hm] at hp
      simp only [Option.some.injEq] at hp
      subst hp
      refine ⟨rfl, hurl, ?_, ?_⟩
      · simp [chatPost, List.lookup, hk1, NewAzureOpenAIClient]
      · simp [chatPost, List.lookup]
  · intro deployment
    cases hm : marshalRequest req with
    | error e =>
      rw [chatCompletion_of_marshal_error w _ req e hm,
        chatCompletion_of_marshal_error w _ req e hm]
    | ok data =>
      rw [chatCompletion_of_marshal w _ req data hm, chatCompletion_of_marshal w _ req data hm]
      rfl
  · intro data hm
    rw [chatCompletion_of_marshal w _ req data hm]
    exact ⟨rfl, rfl⟩

/-- C7. The request `ParseWhois` passes to `ChatCompletion` has exactly two
messages: a `system` message whose content is one fixed prompt, then a `user`
message whose content is the WHOIS text itself; `MaxTokens` is 512,
`Temperature` the float 0.7, `TopP` the float 0.95, all three set, and `Stop`
is nil. -/
theorem parseWhois_request :
    (∃ (prompt : GoString), ∀ (whoisText : GoString),
        (whoisRequest whoisText).Messages
          = some [{ Role := lit "system", Content := prompt },
                  { Role := lit "user", Content := whoisText }])
    ∧ (∀ (whoisText : GoString),
        (whoisRequest whoisText).MaxTokens.map GoInt.val = some 512
        ∧ (whoisRequest whoisText).Temperature.isSome = true
        ∧ (whoisRequest whoisText).Temperature = parseFloat (lit "0.7")
        ∧ (whoisRequest whoisText).TopP.isSome = true
        ∧ (whoisRequest whoisText).TopP = parseFloat (lit "0.95")
        ∧ (whoisRequest whoisText).Stop = none)
    ∧ (∀ (w : World) (c : AzureOpenAIClient) (whoisText : GoString),
        ParseWhois w c whoisText
          = finishParse (ChatCompletion w c (whoisRequest whoisText)).result) := by
  refine ⟨⟨roleSystem, fun _ => rfl⟩, ?_, fun _ _ _ => rfl⟩
  intro whoisText
  have h7 : parseFloat (lit "0.7") = some ⟨0x3FE6666666666666⟩ := by decide!
  have h95 : parseFloat (lit "0.95") = some ⟨0x3FEE666666666666⟩ := by decide!
  rw [h7, h95]
  exact ⟨rfl, rfl, rfl, rfl, rfl, rfl⟩

/-- C10. `ParseWhois` indexes `response.Choices[0]` unchecked: when
`ChatCompletion` succeeds, `ParseWhois` returns exactly when the choices are
not empty, and it panics otherwise. The status-200 bodies `{}` and
`{"choices":[]}` decode without error to a response without choices, and
`ParseWhois` panics on them. -/
theorem parseWhois_panics_without_choices :
    (∀ (w : World) (c : AzureOpenAIClient) (whoisText : GoString)
        (resp : ChatCompletionResponse),
        (ChatCompletion w c (whoisRequest whoisText)).result = Except.ok resp →
        ((∃ m e, ParseWhois w c whoisText = ParseOutcome.returned m e)
            ↔ resp.Choices.getD [] ≠ [])
        ∧ (ParseWhois w c whoisText = ParseOutcome.panicked ↔ resp.Choices.getD [] = []))
    ∧ (ChatCompletion (constWorld 200 (lit "\x7b\x7d")) exampleClient
          (whoisRequest exampleWhois)).result = Except.ok ChatCompletionResponse.zero
    ∧ ParseWhois (constWorld 200 (lit "\x7b\x7d")) exampleClient exampleWhois
        = ParseOutcome.panicked
    ∧ (ChatCompletion (constWorld 200 (lit "\x7b\"choices\":[]\x7d")) exampleClient
          (whoisRequest exampleWhois)).result
        = Except.ok { ChatCompletionResponse.zero with Choices := some [] }
    ∧ ParseWhois (constWorld 200 (lit "\x7b\"choices\":[]\x7d")) exampleClient exampleWhois
        = ParseOutcome.panicked := by
  refine ⟨?_, by decide!, by decide!, by decide!, by decide!⟩
  intro w c whoisText resp hcall
  unfold ParseWhois finishParse
  rw [hcall]
  cases hch : resp.Choices.getD [] with
  | nil => simp [hch]
  | cons choice later => simp [hch]

/-- C5 (the code at the failing input). The client is set up to retry: the
retry count is 3, the waits are bounded by 2 s and 8 s, and the installed
condition asks for a retry of a 503. Yet for a service that answers 503 to
every attempt `ChatCompletion` makes exactly one HTTP attempt, with no wait,
and returns the status error: the request is a POST, which resty does not
retry, and the source never switches that on. With the switch on the same
client makes 4 attempts (1 initial + 3 retries), with waits of 3 s, 7 s and
5 s. -/
theorem retry_exhaustion_not_three_attempts :
    chatClient.RetryCount = 3
    ∧ chatClient.RetryWaitTime = 2 * second
    ∧ chatClient.RetryMaxWaitTime = 8 * second
    ∧ needsRetry chatClient (Except.ok { status := 503, body := Except.ok (lit "busy") }) = true
    ∧ (ChatCompletion jitterWorld exampleClient (whoisRequest exampleWhois)).attempts = 1
    ∧ (ChatCompletion jitterWorld exampleClient (whoisRequest exampleWhois)).attempts ≠ 3
    ∧ (ChatCompletion jitterWorld exampleClient (whoisRequest exampleWhois)).waits = []
    ∧ (ChatCompletion jitterWorld exampleClient (whoisRequest exampleWhois)).result
        = Except.error (GoError.apiStatus (lit "API request failed with status 6571744: busy"))
    ∧ (retryingClient.Execute jitterWorld (chatPost exampleClient Json.null)).attempts = 4
    ∧ (retryingClient.Execute jitterWorld (chatPost exampleClient Json.null)).attempts ≠ 3
    ∧ (retryingClient.Execute jitterWorld (chatPost exampleClient Json.null)).waits
        = [3 * second, 7 * second, 5 * second] := by
  decide!

/-- C8. The JSON object `json.Marshal` writes for a chat request always has
the member `messages`; it has `max_tokens`, `temperature`, `top_p` exactly
when the pointer is set, with the value pointed to (a pointer to 0 writes 0),
and `stop` exactly when the slice has an element. A field that is not set is
left out: it has no member, so neither null nor a zero value. -/
theorem marshalRequest_members (r : ChatCompletionRequest) (doc : Json)
    (h : marshalRequest r = Except.ok doc) :
    (∃ ms, doc = Json.obj ms)
    ∧ doc.member "messages" = some (marshalMessages r.Messages)
    ∧ doc.member "max_tokens"
        = r.MaxTokens.map (fun n => Json.num (JNum.lit (formatInt n.val)))
    ∧ doc.member "temperature" = r.Temperature.map (fun f => Json.num (JNum.float f))
    ∧ doc.member "top_p" = r.TopP.map (fun f => Json.num (JNum.float f))
    ∧ doc.member "stop"
        = (if (r.Stop.getD []).isEmpty then none
           else some (Json.arr ((r.Stop.getD []).map marshalString)))
    ∧ (doc.member "messages").isSome = true
    ∧ ((doc.member "max_tokens").isSome = true ↔ r.MaxTokens ≠ none)
    ∧ ((doc.member "temperature").isSome = true ↔ r.Temperature ≠ none)
    ∧ ((doc.member "top_p").isSome = true ↔ r.TopP ≠ none)
    ∧ ((doc.member "stop").isSome = true ↔ r.Stop.getD [] ≠ []) := by
  have hf := floatsFinite_of_marshal r doc h
  rw [marshalRequest_of_finite r hf] at h
  simp only [Except.ok.injEq] at h
  subst h
  obtain ⟨msgs, mt, temp, topp, stop⟩ := r
  cases mt <;> cases temp <;> cases topp <;> (rcases stop with _ | _ | ⟨x, xs⟩) <;>
    simp [Json.member, marshalIntField, floatMember, marshalStringsField, List.lookup,
      requestKeyNames]

/-- C8 at a concrete input: pointers to 0 and 0.0 are written as 0, the nil
`TopP` and the empty `Stop` are left out. -/
theorem marshalRequest_members_zero :
    ∃ doc, marshalRequest zeroValuedRequest = Except.ok doc
      ∧ doc.member "max_tokens" = some (Json.num (JNum.lit (lit "0")))
      ∧ doc.member "temperature" = some (Json.num (JNum.float ⟨0⟩))
      ∧ doc.member "top_p" = none
      ∧ doc.member "stop" = none :=
  ⟨_, marshalRequest_of_finite zeroValuedRequest (by decide),
    (marshalRequest_members zeroValuedRequest _
      (marshalRequest_of_finite zeroValuedRequest (by decide))).2.2.1.trans (by decide!),
    (marshalRequest_members zeroValuedRequest _
      (marshalRequest_of_finite zeroValuedRequest (by decide))).2.2.2.1,
    (marshalRequest_members zeroValuedRequest _
      (marshalRequest_of_finite zeroValuedRequest (by decide))).2.2.2.2.1,
    (marshalRequest_members zeroValuedRequest _
      (marshalRequest_of_finite zeroValuedRequest (by decide))).2.2.2.2.2.1⟩

/-- C9, amended. For every chat request whose strings are well-formed UTF-8
and whose `Temperature` and `TopP`, where set, are finite, the request
serialises, and deserialising the body gives the request back: the same
messages in the same order, the same `MaxTokens`, `Temperature` and `TopP`
where set and nil where not, the same `Stop` where not empty and nil where
empty. -/
theorem marshal_unmarshal_request (r : ChatCompletionRequest)
    (hs : r.stringsValid = true) (hf : r.floatsFinite = true) :
    ∃ doc, marshalRequest r = Except.ok doc
      ∧ unmarshalRequest doc = Except.ok r.normalised
      ∧ r.normalised.Messages = r.Messages
      ∧ r.normalised.MaxTokens = r.MaxTokens
      ∧ r.normalised.Temperature = r.Temperature
      ∧ r.normalised.TopP = r.TopP
      ∧ (r.Stop.getD [] ≠ [] → r.normalised.Stop = r.Stop)
      ∧ (r.Stop.getD [] = [] → r.normalised.Stop = none) := by
  refine ⟨_, marshalRequest_of_finite r hf, ?_, rfl, rfl, rfl, rfl, ?_, ?_⟩
  · simp only [ChatCompletionRequest.stringsValid, Bool.and_eq_true] at hs
    show List.foldlM requestStep ChatCompletionRequest.zero _ = _
    rw [List.foldlM_append, List.foldlM_append, List.foldlM_append, List.foldlM_append,
      step_messages _ r.Messages rfl hs.1]
    simp only [bind, Except.bind]
    rw [step_max_tokens _ r.MaxTokens rfl]
    simp only []
    rw [step_temperature _ r.Temperature rfl]
    simp only []
    rw [step_top_p _ r.TopP rfl]
    simp only []
    rw [step_stop _ r.Stop rfl hs.2]
    rfl
  · intro h
    simp [ChatCompletionRequest.normalised, h]
  · intro h
    simp [ChatCompletionRequest.normalised, h]

/-- C9 at a concrete input: the request of `ParseWhois` for the example text
serialises and comes back unchanged. -/
theorem marshal_unmarshal_whoisRequest :
    (whoisRequest exampleWhois).stringsValid = true
    ∧ (whoisRequest exampleWhois).floatsFinite = true
    ∧ ∃ doc, marshalRequest (whoisRequest exampleWhois) = Except.ok doc
        ∧ unmarshalRequest doc = Except.ok (whoisRequest exampleWhois) :=
  ⟨by decide!, by decide!,
    (marshal_unmarshal_request (whoisRequest exampleWhois) (by decide!) (by decide!)).imp
      (fun _ h => ⟨h.1, h.2.1⟩)⟩

/-- C9, as stated, fails. The request `ParseWhois` builds for a WHOIS text in
Latin-1 has two messages and serialises, but the body deserialises to a
request whose user message differs: each byte E9 has become U+FFFD. -/
theorem roundtrip_loses_invalid_utf8 :
    (whoisRequest latin1Whois).Messages
      = some [{ Role := lit "system", Content := roleSystem },
              { Role := lit "user", Content := [0x53, 0x6F, 0x63, 0x69, 0xE9, 0x74, 0xE9] }]
    ∧ ∃ doc r,
        marshalRequest (whoisRequest latin1Whois) = Except.ok doc
        ∧ unmarshalRequest doc = Except.ok r
        ∧ r.Messages
          = some [{ Role := lit "system", Content := roleSystem },
                  { Role := lit "user",
                    Content := [0x53, 0x6F, 0x63, 0x69, 0xEF, 0xBF, 0xBD, 0x74, 0xEF, 0xBF, 0xBD] }]
        ∧ r.Messages ≠ (whoisRequest latin1Whois).Messages :=
  ⟨rfl, _,
    { whoisRequest latin1Whois with
      Messages := some
        [{ Role := lit "system", Content := roleSystem },
         { Role := lit "user",
           Content := [0x53, 0x6F, 0x63, 0x69, 0xEF, 0xBF, 0xBD, 0x74, 0xEF, 0xBF, 0xBD] }] },
    marshal_whoisRequest latin1Whois, by decide!, rfl, by decide!⟩

/-! ## Further properties -/

/-- X1 at a concrete input: a final response with status 204, in the 2xx
range but not 200, is returned as the status error. -/
theorem chatCompletion_204_is_error :
    (ChatCompletion (constWorld 204 []) exampleClient (whoisRequest exampleWhois)).result
      = Except.error (GoError.apiStatus
          (lit "API request failed with status " ++ decimal 6571744 ++ lit ": " ++ [])) :=
  chatCompletion_status_error (constWorld 204 []) exampleClient (whoisRequest exampleWhois) _
    { status := 204, body := Except.ok [] } [] (marshal_whoisRequest exampleWhois) rfl rfl
    (by decide)

/-- X2. A request whose `Temperature` or `TopP` is an infinity or a NaN cannot be
serialised: `ChatCompletion` returns the marshaling error and posts nothing. -/
theorem chatCompletion_unsupported_float (w : World) (c : AzureOpenAIClient)
    (r : ChatCompletionRequest) (h : r.floatsFinite = false) :
    (ChatCompletion w c r).result = Except.error (GoError.marshaling JsonError.unsupportedValue)
    ∧ (ChatCompletion w c r).posted = none
    ∧ (ChatCompletion w c r).attempts = 0 := by
  have hm : marshalRequest r = Except.error JsonError.unsupportedValue := by
    obtain ⟨msgs, mt, temp, topp, stop⟩ := r
    simp only [ChatCompletionRequest.floatsFinite, Bool.and_eq_false_iff] at h
    unfold marshalRequest
    cases temp with
    | none =>
      cases topp with
      | none => simp at h
      | some g =>
        have hg : g.isFinite = false := by simpa using h
        simp [marshalFloatField, hg]
    | some f =>
      cases hf : f.isFinite with
      | false => simp [marshalFloatField, hf]
      | true =>
        cases topp with
        | none => simp [hf] at h
        | some g =>
          have hg : g.isFinite = false := by simpa [hf] using h
          simp [marshalFloatField, hf, hg]
  rw [chatCompletion_of_marshal_error w c r _ hm]
  exact ⟨rfl, rfl, rfl⟩

/-- X2 at a concrete input: a request with a NaN temperature is refused
before any HTTP attempt. -/
theorem chatCompletion_nan_temperature :
    (ChatCompletion scenarioWorld exampleClient
        { whoisRequest exampleWhois with Temperature := float64Ptr ⟨0x7FF8000000000000⟩ }).attempts
      = 0 :=
  (chatCompletion_unsupported_float scenarioWorld exampleClient
    { whoisRequest exampleWhois with Temperature := float64Ptr ⟨0x7FF8000000000000⟩ }
    (by decide)).2.2

/-- X3. `ParseWhois` hands an error of `ChatCompletion` on unchanged, with a
nil map. -/
theorem parseWhois_propagates_error (w : World) (c : AzureOpenAIClient) (whoisText : GoString)
    (e : GoError) (h : (ChatCompletion w c (whoisRequest whoisText)).result = Except.error e) :
    ParseWhois w c whoisText = ParseOutcome.returned none (some e) := by
  unfold ParseWhois finishParse
  rw [h]

/-- X3 at a concrete input: the status error of a 404 response is what
`ParseWhois` returns. -/
theorem parseWhois_propagates_404 :
    ParseWhois (constWorld 404 (lit "Resource not found")) exampleClient exampleWhois
      = ParseOutcome.returned none (some (GoError.apiStatus
          (lit "API request failed with status " ++ decimal 6571744 ++ lit ": "
            ++ lit "Resource not found"))) :=
  parseWhois_propagates_error (constWorld 404 (lit "Resource not found")) exampleClient
    exampleWhois _ (by decide!)

end WhoisParserAI
